import Mathlib

/-!
Verification development for the Dispatch-Hub closest-technician engine.

The definitions below are a shallow embedding of the JavaScript source:
the postal normalizer, the tiered geolocation resolver, the haversine
distance estimator with its penalty model, the ORS routing gateway client
(the Netlify function), and the findClosest ranking engine.  JavaScript
numbers are modelled as real numbers; the few places where the source
branches on non-finite numbers are modelled with an explicit JSVal type.
Strings are modelled as Lean strings over their character lists.
-/

/-! ### Character and string helpers (JS toUpperCase / replace / slice) -/

/-- ASCII model of the JS toUpperCase applied per character. -/
def upChar (c : Char) : Char :=
  if 'a' ≤ c ∧ c ≤ 'z' then Char.ofNat (c.toNat - 32) else c

/-- Uppercase Latin letter test, the A-Z part of the source regexes. -/
def isUpperAlpha (c : Char) : Bool :=
  decide ('A' ≤ c) && decide (c ≤ 'Z')

/-- Decimal digit test, the 0-9 part of the source regexes. -/
def isDigitCh (c : Char) : Bool :=
  decide ('0' ≤ c) && decide (c ≤ '9')

/-- Character class [A-Z0-9] used by the replace in normalizePostal. -/
def isAlnumCh (c : Char) : Bool :=
  isUpperAlpha c || isDigitCh c

/-- Whitespace test for the JS trim and the regex class matching spaces. -/
def isWSCh (c : Char) : Bool :=
  c == ' ' || c == '\t' || c == '\n' || c == '\r'

/-- Uppercase a whole string, character by character. -/
def upperStr (s : String) : String :=
  String.mk (s.data.map upChar)

/-- JS String.prototype.trim restricted to common whitespace. -/
def trimStr (s : String) : String :=
  String.mk (((s.data.dropWhile (fun c => isWSCh c)).reverse.dropWhile
    (fun c => isWSCh c)).reverse)

/-- Uppercase then trim, the hint preparation used by latLonForPostal. -/
def upperTrim (s : String) : String :=
  trimStr (upperStr s)

/-! ### Postal Normalizer (source: normalizePostal, formatPostal,
extractPostalFromText in the W2 page script) -/

/-- Uppercase the input and strip every character outside A-Z0-9;
this is s.toUpperCase().trim().replace over the non-alphanumerics. -/
def cleanChars (s : String) : List Char :=
  (s.data.map upChar).filter (fun c => isAlnumCh c)

/-- The letter-digit-letter-digit-letter-digit shape tested by the
final regex of normalizePostal; false for any other length. -/
def postalPat : List Char → Bool
  | [a, b, c, d, e, f] =>
      isUpperAlpha a && isDigitCh b && isUpperAlpha c &&
      isDigitCh d && isUpperAlpha e && isDigitCh f
  | _ => false

/-- Source normalizePostal: uppercase, strip separators, slice to six
characters, then require the Canadian alternating pattern; the empty
string is the explicit could-not-normalize result. -/
def normalizePostal (s : String) : String :=
  let t := (cleanChars s).take 6
  if postalPat t then String.mk t else ""

/-- Source formatPostal: renormalize, then insert one space after the
third character of the six character token. -/
def formatPostal (s : String) : String :=
  let p := normalizePostal s
  if p = "" then "" else String.mk (p.data.take 3 ++ ' ' :: p.data.drop 3)

/-- Letter class of the Canadian postal regex CA_POSTAL_RE
(A B C E G H J-N P R S T V X Y), up to case. -/
def isCaLetter (c : Char) : Bool :=
  let u := upChar c
  u == 'A' || u == 'B' || u == 'C' || u == 'E' || u == 'G' || u == 'H' ||
  u == 'J' || u == 'K' || u == 'L' || u == 'M' || u == 'N' || u == 'P' ||
  u == 'R' || u == 'S' || u == 'T' || u == 'V' || u == 'X' || u == 'Y'

/-- Word character for the regex word boundary. -/
def isWordCh (c : Char) : Bool :=
  isAlnumCh (upChar c) || c == '_'

/-- Attempt the CA_POSTAL_RE pattern at the head of the character list:
letter digit letter, optional whitespace, digit letter digit, followed
by a word boundary.  Returns the six matched characters. -/
def tryCaMatch : List Char → Option (List Char)
  | c0 :: c1 :: c2 :: rest =>
      if isCaLetter c0 && isDigitCh (upChar c1) && isCaLetter c2 then
        match rest.dropWhile (fun c => isWSCh c) with
        | c3 :: c4 :: c5 :: tail =>
            if isDigitCh (upChar c3) && isCaLetter c4 && isDigitCh (upChar c5)
                && (match tail.head? with
                    | some c => !isWordCh c
                    | none => true) then
              some [c0, c1, c2, c3, c4, c5]
            else none
        | _ => none
      else none
  | _ => none

/-- Scan for the first position with a word boundary on the left where
the pattern matches, as the JS regex engine does. -/
def scanCa : Option Char → List Char → Option (List Char)
  | _, [] => none
  | prev, c :: rest =>
      let boundary := match prev with
        | none => true
        | some q => !isWordCh q
      if boundary then
        match tryCaMatch (c :: rest) with
        | some r => some r
        | none => scanCa (some c) rest
      else scanCa (some c) rest

/-- Source extractPostalFromText: first regex match in the free text,
normalized; empty string when there is no match. -/
def extractPostalFromText (t : String) : String :=
  match scanCa none t.data with
  | some r => normalizePostal (String.mk r)
  | none => ""

/-! ### Geolocation Resolver (source: provFromFirstLetter, PROV_PENALTY,
PROV_CENTER, CITY_COORD, provForPostal, latLonForPostal) -/

/-- Precision tier attached to every resolved coordinate.  The source
tags are the strings postal, city and prov; postal is the exact
override tier and prov is the regional-centroid tier. -/
inductive Prec where
  | postal
  | city
  | prov
deriving DecidableEq, Repr, Inhabited

/-- A latitude-longitude pair. -/
structure Coord where
  lat : ℝ
  lon : ℝ
deriving Inhabited

/-- A resolved coordinate as produced by latLonForPostal: the point,
its precision tier, and the province and city that produced it. -/
structure LL where
  lat : ℝ
  lon : ℝ
  prec : Prec
  prov : String
  city : String
deriving Inhabited

/-- Source provFromFirstLetter: static first-letter to province rule;
unrecognized letters yield the empty string. -/
def provFromFirstLetter (ch : Char) : String :=
  let c := upChar ch
  if c = 'A' then "NL"
  else if c = 'B' then "NS"
  else if c = 'C' then "PE"
  else if c = 'E' then "NB"
  else if c = 'G' ∨ c = 'H' ∨ c = 'J' then "QC"
  else if c = 'K' ∨ c = 'L' ∨ c = 'M' ∨ c = 'N' ∨ c = 'P' then "ON"
  else if c = 'R' then "MB"
  else if c = 'S' then "SK"
  else if c = 'T' then "AB"
  else if c = 'V' then "BC"
  else if c = 'X' then "NT"
  else if c = 'Y' then "YT"
  else ""

/-- Source PROV_PENALTY with the 6.0 default of the lookup expression
PROV_PENALTY[prov] or 6.0. -/
def provPenalty (p : String) : ℝ :=
  if p = "QC" then 5.40
  else if p = "ON" then 6.00
  else if p = "BC" then 8.00
  else if p = "AB" then 7.00
  else if p = "MB" then 6.50
  else if p = "SK" then 6.50
  else if p = "NB" then 5.80
  else if p = "NS" then 5.80
  else if p = "PE" then 5.80
  else if p = "NL" then 6.20
  else if p = "YT" then 8.50
  else if p = "NT" then 9.00
  else if p = "NU" then 9.50
  else 6.0

/-- Source PROV_CENTER table of provincial centroids. -/
def provCenter (p : String) : Option Coord :=
  if p = "NL" then some ⟨47.5615, -52.7126⟩
  else if p = "NS" then some ⟨44.6488, -63.5752⟩
  else if p = "PE" then some ⟨46.2382, -63.1311⟩
  else if p = "NB" then some ⟨45.9636, -66.6431⟩
  else if p = "QC" then some ⟨45.5017, -73.5673⟩
  else if p = "ON" then some ⟨43.6532, -79.3832⟩
  else if p = "MB" then some ⟨49.8951, -97.1384⟩
  else if p = "SK" then some ⟨50.4452, -104.6189⟩
  else if p = "AB" then some ⟨53.5461, -113.4938⟩
  else if p = "BC" then some ⟨49.2827, -123.1207⟩
  else if p = "NT" then some ⟨62.4540, -114.3718⟩
  else if p = "NU" then some ⟨63.7467, -68.5167⟩
  else if p = "YT" then some ⟨60.7212, -135.0568⟩
  else none

/-- Source CITY_COORD table keyed by CITY|PROV. -/
def cityCoord (k : String) : Option Coord :=
  if k = "FREDERICKTON|NB" then some ⟨45.9636, -66.6431⟩
  else if k = "FREDERICTON|NB" then some ⟨45.9636, -66.6431⟩
  else if k = "WINNIPEG|MB" then some ⟨49.8951, -97.1384⟩
  else if k = "CALGARY|AB" then some ⟨51.0447, -114.0719⟩
  else if k = "LAVAL|QC" then some ⟨45.6066, -73.7124⟩
  else if k = "THORNHILL|ON" then some ⟨43.8106, -79.4263⟩
  else if k = "EDMONTON|AB" then some ⟨53.5461, -113.4938⟩
  else if k = "RICHMOND (VANCOUVER)|BC" then some ⟨49.1666, -123.1336⟩
  else if k = "RICHMOND|BC" then some ⟨49.1666, -123.1336⟩
  else if k = "SCARBOROUGH|ON" then some ⟨43.7764, -79.2318⟩
  else none

/-- Source provForPostal: consult the dynamic postal-to-province map
first (a truthy entry wins, uppercased), else derive from the first
letter.  The map pp is the external POSTAL_PROV object. -/
def provForPostal (pp : String → Option String) (p6 : String) : String :=
  let p := normalizePostal p6
  if p = "" then ""
  else
    match pp p with
    | some pr => if pr ≠ "" then upperStr pr else
        match p.data.head? with
        | some c => provFromFirstLetter c
        | none => ""
    | none =>
        match p.data.head? with
        | some c => provFromFirstLetter c
        | none => ""

/-- The province used by latLonForPostal: a truthy hint (uppercased and
trimmed) wins, else provForPostal on the normalized postal. -/
def resolvedProv (pp : String → Option String) (p provHint : String) : String :=
  if provHint ≠ "" then upperTrim provHint else provForPostal pp p

/-- The city used by latLonForPostal: a truthy hint, uppercased and
trimmed, else empty. -/
def resolvedCity (cityHint : String) : String :=
  if cityHint ≠ "" then upperTrim cityHint else ""

/-- Source latLonForPostal: normalize, compute the province (hint first,
else provForPostal) and city (hint, uppercased and trimmed), then try
the tiers in order: postal override, CITY_COORD pair, PROV_CENTER.
The empty string plays the role of the absent (null) hint.  The
parameter ov is the POSTAL_OVERRIDE table built from the roster. -/
def latLonForPostal (ov : String → Option Coord) (pp : String → Option String)
    (p6 cityHint provHint : String) : Option LL :=
  let p := normalizePostal p6
  if p = "" then none
  else
    let prov := resolvedProv pp p provHint
    let city := resolvedCity cityHint
    match ov p with
    | some c => some ⟨c.lat, c.lon, Prec.postal, prov, city⟩
    | none =>
        let provTier : Option LL :=
          if prov ≠ "" then
            match provCenter prov with
            | some c => some ⟨c.lat, c.lon, Prec.prov, prov, ""⟩
            | none => none
          else none
        if city ≠ "" ∧ prov ≠ "" then
          match cityCoord (city ++ "|" ++ prov) with
          | some c => some ⟨c.lat, c.lon, Prec.city, prov, city⟩
          | none => provTier
        else provTier

/-! ### Distance Estimator (source: haversineKm, clamp,
effectiveDriveFactor, etaFromKm, etaFromMinutes) -/

/-- Source haversineKm: great-circle distance with Earth radius 6371,
degree inputs converted to radians, kilometer output. -/
noncomputable def haversineKm (a b : LL) : ℝ :=
  let R : ℝ := 6371
  let toRad : ℝ → ℝ := fun x => x * Real.pi / 180
  let dLat := toRad (b.lat - a.lat)
  let dLon := toRad (b.lon - a.lon)
  let lat1 := toRad a.lat
  let lat2 := toRad b.lat
  let s := Real.sin (dLat / 2) ^ 2 +
    Real.cos lat1 * Real.cos lat2 * Real.sin (dLon / 2) ^ 2
  let c := 2 * Real.arcsin (min 1 (Real.sqrt s))
  R * c

/-- A JS number: a finite real, NaN, or a signed infinity.  Used where
the source explicitly branches on isFinite. -/
inductive JSVal where
  | fin (x : ℝ)
  | nan
  | posInf
  | negInf

/-- Multiplication of a JS number by a finite real constant, following
IEEE sign rules for the infinite cases. -/
noncomputable def JSVal.mulR : JSVal → ℝ → JSVal
  | .fin x, c => .fin (x * c)
  | .nan, _ => .nan
  | .posInf, c => if 0 < c then .posInf else if c < 0 then .negInf else .nan
  | .negInf, c => if 0 < c then .negInf else if c < 0 then .posInf else .nan

/-- Source clamp: non-finite inputs collapse to the lower bound, finite
inputs are clamped into [lo, hi]. -/
def clampNum : JSVal → ℝ → ℝ → ℝ
  | .fin x, lo, hi => max lo (min hi x)
  | _, lo, _ => lo

/-- Source effectiveDriveFactor: start from the base factor, multiply by
the provincial road-curvature penalty when the ticket coordinate is at
the prov tier, by a flat 1.8 when the technician coordinate is at the
prov tier, then clamp into [1, 12]. -/
noncomputable def effectiveDriveFactor (base : JSVal)
    (ticketLL techLL : Option LL) : ℝ :=
  let m1 := match ticketLL with
    | some ll => if ll.prec = Prec.prov then base.mulR (provPenalty ll.prov) else base
    | none => base
  let m2 := match techLL with
    | some ll => if ll.prec = Prec.prov then m1.mulR 1.8 else m1
    | none => m1
  clampNum m2 1 12

/-- JS Math.round: round half toward positive infinity. -/
noncomputable def jsRound (x : ℝ) : ℤ := ⌊x + 1 / 2⌋

/-- Source etaFromKm: hours = km / speed, rendered as h and m when at
least one full hour, as minutes only otherwise. -/
noncomputable def etaFromKm (km speed : ℝ) : String :=
  if speed ≤ 0 then "—"
  else
    let hours := km / speed
    let h := ⌊hours⌋
    let m := jsRound ((hours - h) * 60)
    if h ≤ 0 then toString m ++ " min"
    else toString h ++ "h " ++ toString m ++ "m"

/-- Source etaFromMinutes: round the minute count (a null value coerces
to zero in JS), clamp below by zero, and render. -/
noncomputable def etaFromMinutes (minutes : Option ℝ) : String :=
  let v := minutes.getD 0
  let total := max 0 (jsRound v)
  let h := total / 60
  let m := total % 60
  if h ≤ 0 then toString total ++ " min"
  else toString h ++ "h " ++ toString m ++ "m"

/-! ### Ranking Engine (source: findClosest and its helpers in the W2
page script).  The fetch boundary is modelled by an OrsOutcome value
describing what the single postJson round trip did. -/

/-- A technician roster record as consumed by findClosest. -/
structure Tech where
  tech_id : String
  name : String
  city : String
  province : String
  postal : String
deriving DecidableEq, Inhabited, Repr

/-- One scored candidate: the source objects pushed onto the scored
array, with the driving fields initially null. -/
structure Scored where
  tech : Tech
  km : ℝ
  miles : ℝ
  ll : LL
  driveKm : Option ℝ
  driveMiles : Option ℝ
  driveMin : Option ℝ
deriving Inhabited

/-- Resolution of one roster entry, as called from the scoring loop. -/
def resolveTech (ov : String → Option Coord) (pp : String → Option String)
    (t : Tech) : Option LL :=
  latLonForPostal ov pp t.postal t.city t.province

/-- The scoring loop over the roster: unresolvable entries are skipped
with continue, resolvable ones get a straight-line score. -/
noncomputable def mkScored (ov : String → Option Coord)
    (pp : String → Option String) (ticketLL : LL) (roster : List Tech) :
    List Scored :=
  roster.filterMap fun t =>
    (resolveTech ov pp t).map fun ll =>
      { tech := t
        km := haversineKm ticketLL ll
        miles := haversineKm ticketLL ll * 0.621371
        ll := ll
        driveKm := none
        driveMiles := none
        driveMin := none }

/-- The baseline comparator: ascending straight-line kilometers. -/
def rKm (a b : Scored) : Prop := a.km ≤ b.km

noncomputable instance : DecidableRel rKm := fun a b => Real.decidableLE a.km b.km

instance : IsTotal Scored rKm := ⟨fun a b => le_total a.km b.km⟩

instance : IsTrans Scored rKm := ⟨fun _ _ _ => le_trans⟩

/-- Source scored.sort by a.km - b.km: a stable ascending sort. -/
noncomputable def baselineSort (l : List Scored) : List Scored :=
  List.insertionSort rKm l

/-- Sort key for the driving re-rank: a null duration or distance is
replaced by the sentinel 1e12 used in the source comparator. -/
noncomputable def dMinKey (s : Scored) : ℝ := s.driveMin.getD 1e12

/-- Sentinel key for the secondary driving-distance comparison. -/
noncomputable def dKmKey (s : Scored) : ℝ := s.driveKm.getD 1e12

/-- The driving comparator: duration ascending first, distance
ascending as the tie break, both with the 1e12 sentinel for null. -/
noncomputable def rDrive (a b : Scored) : Prop :=
  dMinKey a < dMinKey b ∨ (dMinKey a = dMinKey b ∧ dKmKey a ≤ dKmKey b)

noncomputable instance : DecidableRel rDrive := fun _ _ =>
  instDecidableOr

instance : IsTotal Scored rDrive := by
  constructor
  intro a b
  rcases lt_trichotomy (dMinKey a) (dMinKey b) with h | h | h
  · exact Or.inl (Or.inl h)
  · rcases le_total (dKmKey a) (dKmKey b) with h2 | h2
    · exact Or.inl (Or.inr ⟨h, h2⟩)
    · exact Or.inr (Or.inr ⟨h.symm, h2⟩)
  · exact Or.inr (Or.inl h)

instance : IsTrans Scored rDrive := by
  constructor
  rintro a b c (hab | ⟨hab, hab2⟩) (hbc | ⟨hbc, hbc2⟩)
  · exact Or.inl (lt_trans hab hbc)
  · exact Or.inl (hbc ▸ hab)
  · exact Or.inl (hab ▸ hbc)
  · exact Or.inr ⟨hab.trans hbc, hab2.trans hbc2⟩

/-- Source re-rank of the candidate subset with the sentinel
comparator; candidates.sort is stable. -/
noncomputable def rerank (cs : List Scored) : List Scored :=
  List.insertionSort rDrive cs

/-- Copy the gateway arrays onto the candidate objects by index: only
finite numbers survive, everything else (null, a missing entry, a
non-number) becomes null, and driveMiles is derived from driveKm. -/
def annotate (ds us : List (Option ℝ)) : List Scored → Nat → List Scored
  | [], _ => []
  | c :: cs, i =>
      { c with
        driveKm := (ds.get? i).join
        driveMin := (us.get? i).join
        driveMiles := ((ds.get? i).join).map (fun x => x * 0.621371) } ::
      annotate ds us cs (i + 1)

/-- The predicate of candidates.find: both driving fields non-null. -/
def hasDrive (s : Scored) : Bool :=
  s.driveKm.isSome && s.driveMin.isSome

/-- Source best selection: the first re-ranked candidate with both
driving fields, or the first re-ranked candidate as a fallback. -/
def bestOf (cs : List Scored) : Scored :=
  (cs.find? hasDrive).getD cs.headI

/-- The body of the parsed gateway response: the ok flag and the two
optional arrays, absent fields modelled as none. -/
structure OrsBody where
  ok : Bool
  distances_km : Option (List (Option ℝ))
  durations_min : Option (List (Option ℝ))

/-- What the single postJson round trip to the gateway did: a network
error (the fetch rejected), or an HTTP response with a success flag
and an optionally parsable JSON body. -/
inductive OrsOutcome where
  | netErr
  | httpResp (ok : Bool) (body : Option OrsBody)

/-- The postJson success path plus the ok check in findClosest: any
thrown error, non-success HTTP status, unparsable body or body without
ok collapses to none, which sends findClosest to the fallback. -/
def gwParse : OrsOutcome → Option (List (Option ℝ) × List (Option ℝ))
  | .netErr => none
  | .httpResp hok body =>
      if hok then
        match body with
        | some b =>
            if b.ok then some (b.distances_km.getD [], b.durations_min.getD [])
            else none
        | none => none
      else none

/-- Which mode produced the result. -/
inductive Mode where
  | driving
  | estimate
deriving DecidableEq, Repr

/-- The observable outcome of one findClosest run: the mode, the best
entry, the list handed to renderTopList in final rank order, and the
estimate-mode factor, adjusted distance and ETA text. -/
structure FCResult where
  mode : Mode
  best : Scored
  ranking : List Scored
  effFactor : Option ℝ
  driveKmShown : Option ℝ
  etaText : String

/-- Terminal outcomes of findClosest, including the early failures. -/
inductive FCOutcome where
  | noPostal
  | unresolvedTicket
  | noTechs
  | result (r : FCResult)

/-- The ranking the outcome displays; empty for the failure exits. -/
def FCOutcome.rankingL : FCOutcome → List Scored
  | .result r => r.ranking
  | _ => []

/-- The mode of a successful outcome. -/
def FCOutcome.modeL : FCOutcome → Option Mode
  | .result r => some r.mode
  | _ => none

/-- The best entry of a successful outcome. -/
def FCOutcome.best? : FCOutcome → Option Scored
  | .result r => some r.best
  | _ => none

/-- Whether the caller got a (possibly degraded) result at all. -/
def FCOutcome.isResult : FCOutcome → Bool
  | .result _ => true
  | _ => false

/-- Source baseFactor clamp: Math.max(0.8, Math.min(5, value)). -/
def clampBase (x : ℝ) : ℝ := max 0.8 (min 5 x)

/-- Source speed clamp: Math.max(20, Math.min(130, value)). -/
def clampSpeed (x : ℝ) : ℝ := max 20 (min 130 x)

/-- The input-postal determination at the top of findClosest: the
postal field if it normalizes, else extraction from the ticket text. -/
def resolveInputPostal (postalInput ticketText : String) : String :=
  let p := normalizePostal postalInput
  if p = "" then extractPostalFromText ticketText else p

/-- The estimate fallback tail of findClosest: best is the first entry
of the baseline ranking, the effective factor and adjusted distance
are computed from it, and the full baseline list is rendered. -/
noncomputable def estimateRes (baseFactor speed : ℝ) (ticketLL : LL)
    (sorted : List Scored) : FCOutcome :=
  let best2 := sorted.headI
  let eff := effectiveDriveFactor (.fin baseFactor) (some ticketLL) (some best2.ll)
  .result
    { mode := .estimate
      best := best2
      ranking := sorted
      effFactor := some eff
      driveKmShown := some (best2.km * eff)
      etaText := etaFromKm (best2.km * eff) speed }

/-- The driving attempt and result assembly of findClosest after the
ticket is resolved and the roster is scored: take the top 25, attach
the gateway arrays, re-rank, pick the best, and use the driving display
only when that best entry has a driving distance. -/
noncomputable def afterResolve (baseFactor speed : ℝ)
    (gw : Option (List (Option ℝ) × List (Option ℝ))) (ticketLL : LL)
    (scored : List Scored) : FCOutcome :=
  if scored.isEmpty then .noTechs
  else
    let sorted := baselineSort scored
    match gw with
    | some (ds, us) =>
        let reranked := rerank (annotate ds us (sorted.take 25) 0)
        let best := bestOf reranked
        if best.driveKm.isSome then
          .result
            { mode := .driving
              best := best
              ranking := reranked
              effFactor := none
              driveKmShown := best.driveKm
              etaText := etaFromMinutes best.driveMin }
        else estimateRes baseFactor speed ticketLL sorted
    | none => estimateRes baseFactor speed ticketLL sorted

/-- Source findClosest: determine the postal, resolve the ticket,
score the roster, then run the driving attempt with fallback.  The
gateway call is the pair of the configured flag (ORS_ENDPOINT truthy)
and the round-trip outcome. -/
noncomputable def findClosest (ov : String → Option Coord)
    (pp : String → Option String) (roster : List Tech)
    (postalInput ticketText : String) (bf sp : ℝ)
    (orsConfigured : Bool) (ors : OrsOutcome) : FCOutcome :=
  let p := resolveInputPostal postalInput ticketText
  if p = "" then .noPostal
  else
    match latLonForPostal ov pp p "" "" with
    | none => .unresolvedTicket
    | some ticketLL =>
        afterResolve (clampBase bf) (clampSpeed sp)
          (if orsConfigured then gwParse ors else none) ticketLL
          (mkScored ov pp ticketLL roster)

/-- The body of the postJson request sent to the gateway: the postal
codes of the top 25 baseline candidates, in baseline order. -/
noncomputable def orsRequestPostals (ov : String → Option Coord)
    (pp : String → Option String) (ticketLL : LL) (roster : List Tech) :
    List String :=
  ((baselineSort (mkScored ov pp ticketLL roster)).take 25).map
    fun s => s.tech.postal

/-- Source renderTopList: the shortlist is the first eight entries of
the list in final rank order. -/
def renderTop (l : List Scored) : List Scored := l.take 8

/-! ### Routing Gateway Client (source: the Netlify ORS matrix function,
normPostal, geocodePostalCA, matrixKmMin and the exported handler).
The two external services are parameters: geo gives the geocoder
response for a normalized postal key, mat the matrix service response
for an origin and the geocoded destinations. -/

/-- What the geocoding service said for one postal key: a best match,
an empty result set, or a non-success HTTP status (which the source
turns into a thrown error). -/
inductive GeoRes where
  | found (lon lat : ℝ)
  | notFound
  | geoErr

/-- Outcome of the single matrix request: the first row of the distance
and duration matrices (entries may be null), or a transport or HTTP
failure (thrown in the source). -/
inductive MatRes where
  | okRows (distances durations : List (Option ℝ))
  | matErr

/-- A response from the handler: a failure body with its HTTP status,
or a success body carrying the two aligned arrays. -/
inductive HResp where
  | failResp (status : ℕ)
  | okResp (distances_km durations_min : List (Option ℝ))
deriving Inhabited

/-- Source normPostal of the gateway: uppercase, strip everything
outside A-Z0-9 and slice to six characters; no pattern check. -/
def normPostalGw (s : String) : String :=
  String.mk ((cleanChars s).take 6)

/-- Source geocodePostalCA: empty keys resolve to null, a non-success
geocoder response throws (the error value), an empty feature list gives
null, a feature gives its coordinates. -/
def geocodeCA (geo : String → GeoRes) (postal : String) :
    Except Unit (Option (ℝ × ℝ)) :=
  let key := normPostalGw postal
  if key = "" then .ok none
  else
    match geo key with
    | .found lon lat => .ok (some (lon, lat))
    | .notFound => .ok none
    | .geoErr => .error ()

/-- Promise.all over the destination geocodes: one thrown error rejects
the whole batch. -/
def allGeo (geo : String → GeoRes) : List String →
    Except Unit (List (Option (ℝ × ℝ)))
  | [] => .ok []
  | p :: ps => do
      let x ← geocodeCA geo p
      let xs ← allGeo geo ps
      .ok (x :: xs)

/-- Expansion of the compacted matrix row back onto the original
destination positions: null destinations keep null, geocoded ones
consume the next row entry, with non-numbers becoming null and the
value transformed by f (identity for distances, divide by 60 for
durations). -/
noncomputable def expandRow (f : ℝ → ℝ) : List (Option (ℝ × ℝ)) → List (Option ℝ) →
    List (Option ℝ)
  | [], _ => []
  | none :: rest, vals => none :: expandRow f rest vals
  | some _ :: rest, vals =>
      ((vals.head?).join).map f :: expandRow f rest vals.tail

/-- Source handler for POST with a configured key: normalize the ticket
and the destination postals (dropping unnormalizable ones and keeping
at most 40), geocode the origin then every destination, compact, call
the matrix service once, and expand its row back into arrays aligned
with the normalized destination list. -/
noncomputable def handlerGw (ticket_postal : String) (tech_postals : List String)
    (geo : String → GeoRes)
    (mat : (ℝ × ℝ) → List (ℝ × ℝ) → MatRes) : HResp :=
  let ticket := normPostalGw ticket_postal
  let tech := ((tech_postals.map normPostalGw).filter (fun p => p ≠ "")).take 40
  if ticket = "" ∨ tech.length = 0 then .failResp 400
  else
    match geocodeCA geo ticket with
    | .error _ => .failResp 200
    | .ok none => .failResp 200
    | .ok (some src) =>
        match allGeo geo tech with
        | .error _ => .failResp 200
        | .ok destsRaw =>
            let validDests := destsRaw.filterMap id
            if validDests.length = 0 then .failResp 200
            else
              match mat src validDests with
              | .matErr => .failResp 200
              | .okRows distances durations =>
                  .okResp (expandRow (fun d => d) destsRaw distances)
                    (expandRow (fun t => t / 60) destsRaw durations)

/-- The ticket-side or technician-side test of effectiveDriveFactor:
the optional coordinate is present and at the prov precision tier. -/
def regionTier : Option LL → Prop
  | some ll => ll.prec = Prec.prov
  | none => False

instance : DecidablePred regionTier := fun o =>
  match o with
  | some ll => inferInstanceAs (Decidable (ll.prec = Prec.prov))
  | none => inferInstanceAs (Decidable False)

/-- The province of an optional coordinate, the lookup key of the
penalty table. -/
def provOfOpt : Option LL → String
  | some ll => ll.prov
  | none => ""

/-! ### Lemmas about the postal normalizer -/

theorem upChar_fix {c : Char} (h : isAlnumCh c = true) : upChar c = c := by
  unfold isAlnumCh isUpperAlpha isDigitCh at h
  simp only [Bool.or_eq_true, Bool.and_eq_true, decide_eq_true_eq] at h
  unfold upChar
  rw [if_neg]
  rintro ⟨h1, -⟩
  rcases h with ⟨-, h2⟩ | ⟨-, h2⟩
  · exact absurd (le_trans h1 h2) (by decide)
  · exact absurd (le_trans h1 h2) (by decide)

theorem postalPat_alnum {t : List Char} (h : postalPat t = true) :
    t.length = 6 ∧ ∀ c ∈ t, isAlnumCh c = true := by
  match t, h with
  | [a, b, c, d, e, f], h =>
    unfold postalPat at h
    simp only [Bool.and_eq_true] at h
    obtain ⟨⟨⟨⟨⟨ha, hb⟩, hc⟩, hd⟩, he⟩, hf⟩ := h
    refine ⟨rfl, ?_⟩
    intro x hx
    unfold isAlnumCh
    simp only [List.mem_cons, List.not_mem_nil, or_false] at hx
    rcases hx with rfl | rfl | rfl | rfl | rfl | rfl <;>
      simp only [ha, hb, hc, hd, he, hf, Bool.or_true, Bool.true_or]

theorem map_upChar_fix {t : List Char} (h : ∀ c ∈ t, isAlnumCh c = true) :
    t.map upChar = t := by
  induction t with
  | nil => rfl
  | cons a l ih =>
      rw [List.map_cons, upChar_fix (h a (List.mem_cons_self a l)),
        ih (fun c hc => h c (List.mem_cons_of_mem a hc))]

theorem cleanChars_mk {t : List Char} (h : ∀ c ∈ t, isAlnumCh c = true) :
    cleanChars (String.mk t) = t := by
  unfold cleanChars
  show (t.map upChar).filter (fun c => isAlnumCh c) = t
  rw [map_upChar_fix h]
  exact List.filter_eq_self.2 h

theorem normalizePostal_mk {t : List Char} (hp : postalPat t = true) :
    normalizePostal (String.mk t) = String.mk t := by
  obtain ⟨hlen, halnum⟩ := postalPat_alnum hp
  unfold normalizePostal
  rw [cleanChars_mk halnum, ← hlen, List.take_length, if_pos hp]

theorem cleanChars_spaced {t : List Char} (h : ∀ c ∈ t, isAlnumCh c = true) :
    cleanChars (String.mk (t.take 3 ++ ' ' :: t.drop 3)) = t := by
  unfold cleanChars
  show ((t.take 3 ++ ' ' :: t.drop 3).map upChar).filter (fun c => isAlnumCh c) = t
  have htk : ∀ c ∈ t.take 3, isAlnumCh c = true :=
    fun c hc => h c (List.take_subset 3 t hc)
  have hdr : ∀ c ∈ t.drop 3, isAlnumCh c = true :=
    fun c hc => h c (List.drop_subset 3 t hc)
  rw [List.map_append, List.map_cons, map_upChar_fix htk, map_upChar_fix hdr,
    List.filter_append, List.filter_cons]
  have hsp : upChar ' ' = ' ' := by decide
  rw [hsp]
  have hns : isAlnumCh ' ' = false := by decide
  simp only [hns, Bool.false_eq_true, if_false, List.filter_eq_self.2 htk,
    List.filter_eq_self.2 hdr, List.take_append_drop]

/-- C7: for every raw string that normalizes successfully, normalizing
the formatted form of the normalized token gives the token back;
formatting inserts a single space after the third character of the six
character token; and normalization is total, returning the empty
string as its explicit failure value or a token matching the postal
pattern. -/
theorem claim_C7 (x : String) :
    (normalizePostal x = "" ∨ postalPat (normalizePostal x).data = true) ∧
    (normalizePostal x ≠ "" →
      normalizePostal (formatPostal (normalizePostal x)) = normalizePostal x ∧
      formatPostal (normalizePostal x) =
        String.mk ((normalizePostal x).data.take 3 ++ ' ' ::
          (normalizePostal x).data.drop 3) ∧
      (normalizePostal x).length = 6) := by
  by_cases hp : postalPat ((cleanChars x).take 6) = true
  · set t := (cleanChars x).take 6 with ht
    have hnx : normalizePostal x = String.mk t := by
      unfold normalizePostal
      rw [← ht, if_pos hp]
    obtain ⟨hlen, halnum⟩ := postalPat_alnum hp
    have hdata : (normalizePostal x).data = t := by rw [hnx]
    have hmkne : String.mk t ≠ "" := by
      intro hcon
      have hnil : t = [] := congrArg String.data hcon
      rw [hnil] at hlen
      exact absurd hlen (by decide)
    have hne : normalizePostal x ≠ "" := by rw [hnx]; exact hmkne
    have hfmt : formatPostal (normalizePostal x) =
        String.mk (t.take 3 ++ ' ' :: t.drop 3) := by
      unfold formatPostal
      rw [hnx, normalizePostal_mk hp, if_neg hmkne]
    refine ⟨Or.inr (hdata ▸ hp), fun _ => ⟨?_, ?_, ?_⟩⟩
    · rw [hfmt, hnx]
      unfold normalizePostal
      rw [cleanChars_spaced halnum, ← hlen, List.take_length, if_pos hp]
    · rw [hfmt, hdata]
    · show (normalizePostal x).data.length = 6
      rw [hdata, hlen]
  · have hnx : normalizePostal x = "" := by
      unfold normalizePostal
      rw [if_neg hp]
    exact ⟨Or.inl hnx, fun hne => absurd hnx hne⟩

/-- Witness for C7 at the concrete raw input "k1a 0b1". -/
theorem claim_C7_witness :
    normalizePostal "k1a 0b1" ≠ "" ∧
    normalizePostal (formatPostal (normalizePostal "k1a 0b1")) =
      normalizePostal "k1a 0b1" :=
  ⟨by decide, ((claim_C7 "k1a 0b1").2 (by decide)).1⟩

/-! ### Lemmas about the distance estimator -/

theorem clampNum_mem (x : JSVal) : 1 ≤ clampNum x 1 12 ∧ clampNum x 1 12 ≤ 12 := by
  cases x with
  | fin v => exact ⟨le_max_left _ _, max_le (by norm_num) (min_le_left _ _)⟩
  | nan => exact ⟨le_refl _, by norm_num [clampNum]⟩
  | posInf => exact ⟨le_refl _, by norm_num [clampNum]⟩
  | negInf => exact ⟨le_refl _, by norm_num [clampNum]⟩

/-- C8: the haversine distance is symmetric and zero on the diagonal,
and it is nonnegative; the hypotheses restrict the latitudes to the
geographic domain where the radicand of the formula is nonnegative. -/
theorem claim_C8 (a b : LL) (_ha : |a.lat| ≤ 90) (_hb : |b.lat| ≤ 90) :
    haversineKm a b = haversineKm b a ∧ haversineKm a a = 0 ∧
    0 ≤ haversineKm a b := by
  refine ⟨?_, ?_, ?_⟩
  · unfold haversineKm
    dsimp only
    have hlat : Real.sin ((b.lat - a.lat) * Real.pi / 180 / 2) ^ 2
        = Real.sin ((a.lat - b.lat) * Real.pi / 180 / 2) ^ 2 := by
      rw [show (b.lat - a.lat) * Real.pi / 180 / 2
        = -((a.lat - b.lat) * Real.pi / 180 / 2) by ring, Real.sin_neg, neg_sq]
    have hlon : Real.sin ((b.lon - a.lon) * Real.pi / 180 / 2) ^ 2
        = Real.sin ((a.lon - b.lon) * Real.pi / 180 / 2) ^ 2 := by
      rw [show (b.lon - a.lon) * Real.pi / 180 / 2
        = -((a.lon - b.lon) * Real.pi / 180 / 2) by ring, Real.sin_neg, neg_sq]
    rw [hlat, hlon, mul_comm (Real.cos (a.lat * Real.pi / 180))
      (Real.cos (b.lat * Real.pi / 180))]
  · unfold haversineKm
    dsimp only
    rw [sub_self, sub_self, zero_mul, zero_div, zero_div, Real.sin_zero]
    norm_num [Real.sqrt_zero, Real.arcsin_zero]
  · unfold haversineKm
    dsimp only
    have h0 : (0:ℝ) ≤ min 1 (Real.sqrt (Real.sin ((b.lat - a.lat) * Real.pi / 180 / 2) ^ 2 +
        Real.cos (a.lat * Real.pi / 180) * Real.cos (b.lat * Real.pi / 180) *
          Real.sin ((b.lon - a.lon) * Real.pi / 180 / 2) ^ 2)) :=
      le_min (by norm_num) (Real.sqrt_nonneg _)
    have harc := Real.arcsin_nonneg.2 h0
    positivity

/-- Witness for C8 at two concrete Canadian coordinates. -/
theorem claim_C8_witness :
    |(45:ℝ)| ≤ 90 ∧
    (haversineKm ⟨45, -75, Prec.prov, "ON", ""⟩ ⟨49, -123, Prec.prov, "BC", ""⟩ =
      haversineKm ⟨49, -123, Prec.prov, "BC", ""⟩ ⟨45, -75, Prec.prov, "ON", ""⟩ ∧
    haversineKm ⟨45, -75, Prec.prov, "ON", ""⟩ ⟨45, -75, Prec.prov, "ON", ""⟩ = 0 ∧
    0 ≤ haversineKm ⟨45, -75, Prec.prov, "ON", ""⟩ ⟨49, -123, Prec.prov, "BC", ""⟩) :=
  ⟨by norm_num,
    claim_C8 ⟨45, -75, Prec.prov, "ON", ""⟩ ⟨49, -123, Prec.prov, "BC", ""⟩
      (by norm_num) (by norm_num)⟩

/-- C6: the effective drive factor always lands in [1, 12], even for
non-finite base factors; for a finite base it is exactly the base times
the provincial curvature penalty when the ticket coordinate is at the
region tier, times a flat 1.8 when the technician coordinate is at the
region tier, clamped into [1, 12]; and provinces outside the penalty
table get the default 6.0. -/
theorem claim_C6 (base : JSVal) (t1 t2 : Option LL) :
    (1 ≤ effectiveDriveFactor base t1 t2 ∧
      effectiveDriveFactor base t1 t2 ≤ 12) ∧
    (∀ b : ℝ, effectiveDriveFactor (.fin b) t1 t2 =
      max 1 (min 12 (b * (if regionTier t1 then provPenalty (provOfOpt t1) else 1) *
        (if regionTier t2 then 1.8 else 1)))) ∧
    (∀ pr : String,
      pr ∉ (["QC", "ON", "BC", "AB", "MB", "SK", "NB", "NS", "PE", "NL",
        "YT", "NT", "NU"] : List String) → provPenalty pr = 6.0) := by
  refine ⟨clampNum_mem _, ?_, ?_⟩
  · intro b
    rcases t1 with _ | ll1 <;> rcases t2 with _ | ll2 <;>
      simp only [effectiveDriveFactor, JSVal.mulR, regionTier, provOfOpt,
        clampNum, if_false] <;>
      (try split_ifs) <;> norm_num [mul_assoc]
  · intro pr hpr
    simp only [List.mem_cons, List.not_mem_nil, or_false, not_or] at hpr
    obtain ⟨h1, h2, h3, h4, h5, h6, h7, h8, h9, h10, h11, h12, h13⟩ := hpr
    unfold provPenalty
    rw [if_neg h1, if_neg h2, if_neg h3, if_neg h4, if_neg h5, if_neg h6,
      if_neg h7, if_neg h8, if_neg h9, if_neg h10, if_neg h11, if_neg h12,
      if_neg h13]

/-- Witness for C6: a NaN base factor with a region-tier ticket in an
unlisted province still produces a factor inside [1, 12], and the
unlisted province gets the default penalty. -/
theorem claim_C6_witness :
    (1 ≤ effectiveDriveFactor JSVal.nan (some ⟨0, 0, Prec.prov, "ZZ", ""⟩) none ∧
      effectiveDriveFactor JSVal.nan (some ⟨0, 0, Prec.prov, "ZZ", ""⟩) none ≤ 12) ∧
    provPenalty "ZZ" = 6.0 :=
  ⟨(claim_C6 JSVal.nan (some ⟨0, 0, Prec.prov, "ZZ", ""⟩) none).1,
    (claim_C6 JSVal.nan (some ⟨0, 0, Prec.prov, "ZZ", ""⟩) none).2.2 "ZZ" (by decide)⟩

/-- C9: the caller-side speed clamp lands in [20, 130], and for a
nonnegative distance the estimate ETA renders the exact hours
km / speed as h and m when at least one full hour and as rounded
minutes otherwise. -/
theorem claim_C9 (km sp : ℝ) (hkm : 0 ≤ km) :
    (20 ≤ clampSpeed sp ∧ clampSpeed sp ≤ 130) ∧
    etaFromKm km (clampSpeed sp) =
      (if 1 ≤ km / clampSpeed sp then
        toString ⌊km / clampSpeed sp⌋ ++ "h " ++
          toString (jsRound ((km / clampSpeed sp - ⌊km / clampSpeed sp⌋) * 60)) ++ "m"
      else toString (jsRound (km / clampSpeed sp * 60)) ++ " min") := by
  have h20 : (20:ℝ) ≤ clampSpeed sp := le_max_left _ _
  have h130 : clampSpeed sp ≤ 130 := max_le (by norm_num) (min_le_left _ _)
  have hpos : (0:ℝ) < clampSpeed sp := lt_of_lt_of_le (by norm_num) h20
  refine ⟨⟨h20, h130⟩, ?_⟩
  unfold etaFromKm
  rw [if_neg (not_le.2 hpos)]
  dsimp only
  by_cases h1 : 1 ≤ km / clampSpeed sp
  · have hfl : ¬ (⌊km / clampSpeed sp⌋ ≤ 0) := by
      have : (1:ℤ) ≤ ⌊km / clampSpeed sp⌋ := Int.le_floor.2 (by exact_mod_cast h1)
      omega
    rw [if_neg hfl, if_pos h1]
  · have hge : 0 ≤ km / clampSpeed sp := div_nonneg hkm (le_of_lt hpos)
    have hfl : ⌊km / clampSpeed sp⌋ = 0 :=
      Int.floor_eq_zero_iff.2 ⟨hge, not_le.1 h1⟩
    rw [if_pos (by rw [hfl]), if_neg h1, hfl]
    norm_num

/-- Witness for C9 at 200 km and raw speed 80. -/
theorem claim_C9_witness :
    (0:ℝ) ≤ 200 ∧
    ((20 ≤ clampSpeed 80 ∧ clampSpeed 80 ≤ 130) ∧
    etaFromKm 200 (clampSpeed 80) =
      (if 1 ≤ (200:ℝ) / clampSpeed 80 then
        toString ⌊(200:ℝ) / clampSpeed 80⌋ ++ "h " ++
          toString (jsRound (((200:ℝ) / clampSpeed 80 - ⌊(200:ℝ) / clampSpeed 80⌋) * 60)) ++ "m"
      else toString (jsRound ((200:ℝ) / clampSpeed 80 * 60)) ++ " min")) :=
  ⟨by norm_num, claim_C9 200 80 (by norm_num)⟩

/-! ### Lemmas about the geolocation resolver -/

theorem normalizePostal_idem {x : String} (h : normalizePostal x ≠ "") :
    normalizePostal (normalizePostal x) = normalizePostal x := by
  by_cases hp : postalPat ((cleanChars x).take 6) = true
  · have hnx : normalizePostal x = String.mk ((cleanChars x).take 6) := by
      unfold normalizePostal
      rw [if_pos hp]
    rw [hnx, normalizePostal_mk hp]
  · exact absurd (by unfold normalizePostal; rw [if_neg hp]) h

/-- C4 amended: the resolver normalizes, then tries the tiers in order
with the first hit winning: the override table at the postal (exact)
tier, the uppercased (city, region) pair at the city tier, and the
region centroid at the prov tier; the region is taken from the
supplied region hint when present, else from a non-empty entry of the
external postal-to-region map, else from the first-character rule, and
an unrecognized first character (with no hint and no map entry) yields
the empty region and hence an unresolved result when the earlier tiers
miss. -/
theorem claim_C4_amended (ov : String → Option Coord)
    (pp : String → Option String) (p6 cityHint provHint : String) :
    (normalizePostal p6 = "" → latLonForPostal ov pp p6 cityHint provHint = none) ∧
    (∀ p, normalizePostal p6 = p → p ≠ "" →
      (∀ c, ov p = some c →
        latLonForPostal ov pp p6 cityHint provHint =
          some ⟨c.lat, c.lon, Prec.postal, resolvedProv pp p provHint,
            resolvedCity cityHint⟩) ∧
      (ov p = none →
        (∀ c, resolvedCity cityHint ≠ "" → resolvedProv pp p provHint ≠ "" →
          cityCoord (resolvedCity cityHint ++ "|" ++ resolvedProv pp p provHint) =
            some c →
          latLonForPostal ov pp p6 cityHint provHint =
            some ⟨c.lat, c.lon, Prec.city, resolvedProv pp p provHint,
              resolvedCity cityHint⟩) ∧
        ((resolvedCity cityHint = "" ∨ resolvedProv pp p provHint = "" ∨
            cityCoord (resolvedCity cityHint ++ "|" ++
              resolvedProv pp p provHint) = none) →
          (∀ c, resolvedProv pp p provHint ≠ "" →
            provCenter (resolvedProv pp p provHint) = some c →
            latLonForPostal ov pp p6 cityHint provHint =
              some ⟨c.lat, c.lon, Prec.prov, resolvedProv pp p provHint, ""⟩) ∧
          ((resolvedProv pp p provHint = "" ∨
              provCenter (resolvedProv pp p provHint) = none) →
            latLonForPostal ov pp p6 cityHint provHint = none)))) ∧
    (∀ p c cs, normalizePostal p6 = p → p ≠ "" → provHint = "" → pp p = none →
      p.data = c :: cs → provFromFirstLetter c = "" →
      resolvedProv pp p provHint = "") := by
  refine ⟨?_, ?_, ?_⟩
  · intro h0
    unfold latLonForPostal
    rw [h0, if_pos rfl]
  · intro p hp hne
    constructor
    · intro c hov
      unfold latLonForPostal
      dsimp only
      rw [hp, if_neg hne, hov]
    · intro hov
      constructor
      · intro c hc hpv hcc
        unfold latLonForPostal
        dsimp only
        rw [hp, if_neg hne, hov, if_pos ⟨hc, hpv⟩, hcc]
      · intro hmiss
        constructor
        · intro c hpv hpc
          unfold latLonForPostal
          dsimp only
          rw [hp, if_neg hne, hov]
          rcases hmiss with hc | hpv2 | hcc
          · rw [if_neg (fun hand => hand.1 hc), if_pos hpv, hpc]
          · exact absurd hpv2 hpv
          · by_cases hand : resolvedCity cityHint ≠ "" ∧
                resolvedProv pp p provHint ≠ ""
            · rw [if_pos hand, hcc, if_pos hpv, hpc]
            · rw [if_neg hand, if_pos hpv, hpc]
        · intro hnone
          unfold latLonForPostal
          dsimp only
          rw [hp, if_neg hne, hov]
          rcases hnone with hpv | hpc
          · have hcond : ¬ (resolvedCity cityHint ≠ "" ∧
                resolvedProv pp p provHint ≠ "") := fun hand => hand.2 hpv
            rw [if_neg hcond, if_neg (fun hc => hc hpv)]
          · by_cases hpv : resolvedProv pp p provHint ≠ ""
            · rcases hmiss with hc | hpv2 | hcc
              · rw [if_neg (fun hand => hand.1 hc), if_pos hpv, hpc]
              · exact absurd hpv2 hpv
              · by_cases hand : resolvedCity cityHint ≠ "" ∧
                    resolvedProv pp p provHint ≠ ""
                · rw [if_pos hand, hcc, if_pos hpv, hpc]
                · rw [if_neg hand, if_pos hpv, hpc]
            · have hcond : ¬ (resolvedCity cityHint ≠ "" ∧
                  resolvedProv pp p provHint ≠ "") := fun hand => hpv hand.2
              rw [if_neg hcond, if_neg hpv]
  · intro p c cs hp hne hhint hppnone hdata hfirst
    unfold resolvedProv
    rw [hhint]
    rw [if_neg (fun hcon => hcon rfl)]
    unfold provForPostal
    rw [← hp, normalizePostal_idem (hp ▸ hne), hp, if_neg hne, hppnone, hdata]
    show provFromFirstLetter c = ""
    exact hfirst

/-- Counterexample to C4 as stated: for the postal T1A1A1 the external
map supplies the region QC, yet with the region hint AB the resolver
uses AB and returns the AB centroid, so the region is not taken from
the map although the map has an entry. -/
theorem claim_C4_cx :
    latLonForPostal (fun _ => none)
      (fun q => if q = "T1A1A1" then some "QC" else none) "T1A1A1" "" "AB" =
      some ⟨53.5461, -113.4938, Prec.prov, "AB", ""⟩ ∧
    (fun q => if q = "T1A1A1" then some "QC" else none) "T1A1A1" = some "QC" ∧
    ("AB" : String) ≠ "QC" :=
  ⟨rfl, rfl, by decide⟩

/-- Witness for the amended C4 at a concrete override hit. -/
theorem claim_C4_witness :
    latLonForPostal (fun q => if q = "K1A0B1" then some ⟨45, -75⟩ else none)
      (fun _ => none) "K1A 0B1" "Ottawa" "ON" =
      some ⟨45, -75, Prec.postal, resolvedProv (fun _ => none) "K1A0B1" "ON",
        resolvedCity "Ottawa"⟩ :=
  ((claim_C4_amended (fun q => if q = "K1A0B1" then some ⟨45, -75⟩ else none)
    (fun _ => none) "K1A 0B1" "Ottawa" "ON").2.1 "K1A0B1" (by decide)
      (by decide)).1 ⟨45, -75⟩ rfl

/-! ### Projections and step lemmas for the ranking engine -/

theorem headI_mem_of_ne_nil {α : Type _} [Inhabited α] {l : List α}
    (h : l ≠ []) : l.headI ∈ l := by
  cases l with
  | nil => exact absurd rfl h
  | cons a t => exact List.mem_cons_self a t

theorem mem_mkScored {ov : String → Option Coord} {pp : String → Option String}
    {tLL : LL} {roster : List Tech} {s : Scored}
    (h : s ∈ mkScored ov pp tLL roster) :
    s.tech ∈ roster ∧ resolveTech ov pp s.tech = some s.ll := by
  unfold mkScored at h
  obtain ⟨t, hmem, hmap⟩ := List.mem_filterMap.1 h
  obtain ⟨ll, hll, hs⟩ := Option.map_eq_some'.1 hmap
  subst hs
  exact ⟨hmem, hll⟩

theorem mkScored_length (ov : String → Option Coord)
    (pp : String → Option String) (tLL : LL) :
    ∀ roster : List Tech, (mkScored ov pp tLL roster).length =
      (roster.filter (fun x => (resolveTech ov pp x).isSome)).length := by
  intro roster
  induction roster with
  | nil => rfl
  | cons t ts ih =>
      rcases h : resolveTech ov pp t with _ | ll <;>
        simp [mkScored, List.filterMap_cons, List.filter_cons, h] <;>
        simpa [mkScored] using ih

theorem mkScored_cons_some {ov : String → Option Coord}
    {pp : String → Option String} {tLL : LL} {t : Tech} {ts : List Tech}
    {ll : LL} (h : resolveTech ov pp t = some ll) :
    mkScored ov pp tLL (t :: ts) =
      ⟨t, haversineKm tLL ll, haversineKm tLL ll * 0.621371, ll,
        none, none, none⟩ :: mkScored ov pp tLL ts := by
  unfold mkScored
  rw [List.filterMap_cons, h]
  rfl

theorem mkScored_cons_none {ov : String → Option Coord}
    {pp : String → Option String} {tLL : LL} {t : Tech} {ts : List Tech}
    (h : resolveTech ov pp t = none) :
    mkScored ov pp tLL (t :: ts) = mkScored ov pp tLL ts := by
  unfold mkScored
  rw [List.filterMap_cons, h]
  rfl

theorem mem_annotate {ds us : List (Option ℝ)} :
    ∀ {l : List Scored} {i : ℕ} {s : Scored}, s ∈ annotate ds us l i →
      ∃ c ∈ l, s.tech = c.tech ∧ s.ll = c.ll ∧ s.km = c.km := by
  intro l
  induction l with
  | nil =>
      intro i s h
      exact absurd h (List.not_mem_nil s)
  | cons c cs ih =>
      intro i s h
      rcases List.mem_cons.1 h with rfl | h2
      · exact ⟨c, List.mem_cons_self c cs, rfl, rfl, rfl⟩
      · obtain ⟨c2, hc2, h3⟩ := ih h2
        exact ⟨c2, List.mem_cons_of_mem c hc2, h3⟩

theorem annotate_length (ds us : List (Option ℝ)) :
    ∀ (l : List Scored) (i : ℕ), (annotate ds us l i).length = l.length := by
  intro l
  induction l with
  | nil => intro i; rfl
  | cons c cs ih => intro i; simpa [annotate] using ih (i + 1)

theorem baselineSort_ne_nil {scored : List Scored} (h : scored ≠ []) :
    baselineSort scored ≠ [] := by
  intro hcon
  have hlen := (List.perm_insertionSort rKm scored).length_eq
  rw [show List.insertionSort rKm scored = baselineSort scored from rfl,
    hcon] at hlen
  exact h (List.length_eq_zero.1 hlen.symm)

theorem rerank_ne_nil {cs : List Scored} (h : cs ≠ []) : rerank cs ≠ [] := by
  intro hcon
  have hlen := (List.perm_insertionSort rDrive cs).length_eq
  rw [show List.insertionSort rDrive cs = rerank cs from rfl, hcon] at hlen
  exact h (List.length_eq_zero.1 hlen.symm)

theorem bestOf_mem {cs : List Scored} (h : cs ≠ []) : bestOf cs ∈ cs := by
  unfold bestOf
  rcases hf : cs.find? hasDrive with _ | x
  · simpa using headI_mem_of_ne_nil h
  · simpa using List.mem_of_find?_eq_some hf

theorem candidates_ne_nil {ds us : List (Option ℝ)} {scored : List Scored}
    (h : scored ≠ []) :
    annotate ds us ((baselineSort scored).take 25) 0 ≠ [] := by
  intro hcon
  have h1 := annotate_length ds us ((baselineSort scored).take 25) 0
  rw [hcon] at h1
  have h2 : ((baselineSort scored).take 25).length = 0 := h1.symm
  rw [List.length_take] at h2
  have h3 : (baselineSort scored).length = 0 := by omega
  exact baselineSort_ne_nil h (List.length_eq_zero.1 h3)

theorem afterResolve_none_eq {bf sp : ℝ} {tLL : LL} {scored : List Scored}
    (h : scored ≠ []) :
    afterResolve bf sp none tLL scored =
      estimateRes bf sp tLL (baselineSort scored) := by
  unfold afterResolve
  rw [if_neg (fun hcon => h (List.isEmpty_iff.1 hcon))]

theorem findClosest_eq_afterResolve {ov : String → Option Coord}
    {pp : String → Option String} {roster : List Tech} {pi tt : String}
    {bf sp : ℝ} {orsC : Bool} {ors : OrsOutcome} {tLL : LL}
    (hp : resolveInputPostal pi tt ≠ "")
    (hll : latLonForPostal ov pp (resolveInputPostal pi tt) "" "" = some tLL) :
    findClosest ov pp roster pi tt bf sp orsC ors =
      afterResolve (clampBase bf) (clampSpeed sp)
        (if orsC then gwParse ors else none) tLL
        (mkScored ov pp tLL roster) := by
  unfold findClosest
  dsimp only
  rw [if_neg hp]
  simp only [hll]

theorem findClosest_cases (ov : String → Option Coord)
    (pp : String → Option String) (roster : List Tech) (pi tt : String)
    (bf sp : ℝ) (orsC : Bool) (ors : OrsOutcome) :
    findClosest ov pp roster pi tt bf sp orsC ors = .noPostal ∨
    findClosest ov pp roster pi tt bf sp orsC ors = .unresolvedTicket ∨
    ∃ tLL, latLonForPostal ov pp (resolveInputPostal pi tt) "" "" = some tLL ∧
      findClosest ov pp roster pi tt bf sp orsC ors =
        afterResolve (clampBase bf) (clampSpeed sp)
          (if orsC then gwParse ors else none) tLL
          (mkScored ov pp tLL roster) := by
  by_cases hp : resolveInputPostal pi tt = ""
  · left
    unfold findClosest
    dsimp only
    rw [if_pos hp]
  · rcases hll : latLonForPostal ov pp (resolveInputPostal pi tt) "" "" with _ | tLL
    · right; left
      unfold findClosest
      dsimp only
      rw [if_neg hp]
      simp only [hll]
    · exact Or.inr (Or.inr ⟨tLL, rfl, findClosest_eq_afterResolve hp hll⟩)

theorem mem_rankingL_afterResolve {bf sp : ℝ}
    {gw : Option (List (Option ℝ) × List (Option ℝ))} {tLL : LL}
    {scored : List Scored} {s : Scored}
    (h : s ∈ (afterResolve bf sp gw tLL scored).rankingL) :
    ∃ c ∈ scored, s.tech = c.tech ∧ s.ll = c.ll := by
  unfold afterResolve at h
  by_cases he : scored.isEmpty
  · rw [if_pos he] at h
    exact absurd h (List.not_mem_nil s)
  · rw [if_neg he] at h
    rcases gw with _ | ⟨ds, us⟩
    · replace h : s ∈ baselineSort scored := by
        simpa [estimateRes, FCOutcome.rankingL] using h
      exact ⟨s, (List.mem_insertionSort rKm).1 h, rfl, rfl⟩
    · dsimp only at h
      by_cases hb : (bestOf (rerank (annotate ds us
          ((baselineSort scored).take 25) 0))).driveKm.isSome
      · rw [if_pos hb] at h
        replace h : s ∈ rerank (annotate ds us
            ((baselineSort scored).take 25) 0) := by
          simpa [FCOutcome.rankingL] using h
        replace h := (List.mem_insertionSort rDrive).1 h
        obtain ⟨c, hc, hts, hll2, -⟩ := mem_annotate h
        have hc2 : c ∈ baselineSort scored := List.take_subset 25 _ hc
        exact ⟨c, (List.mem_insertionSort rKm).1 hc2, hts, hll2⟩
      · rw [if_neg hb] at h
        replace h : s ∈ baselineSort scored := by
          simpa [estimateRes, FCOutcome.rankingL] using h
        exact ⟨s, (List.mem_insertionSort rKm).1 h, rfl, rfl⟩

theorem afterResolve_best_mem {bf sp : ℝ}
    {gw : Option (List (Option ℝ) × List (Option ℝ))} {tLL : LL}
    {scored : List Scored} {b : Scored}
    (h : (afterResolve bf sp gw tLL scored).best? = some b) :
    b ∈ (afterResolve bf sp gw tLL scored).rankingL := by
  unfold afterResolve at h ⊢
  by_cases he : scored.isEmpty
  · rw [if_pos he] at h
    exact absurd h (by simp [FCOutcome.best?])
  · have hsne : scored ≠ [] := fun hcon => he (by simp [hcon])
    rw [if_neg he] at h ⊢
    rcases gw with _ | ⟨ds, us⟩
    · replace h : b = (baselineSort scored).headI := by
        simpa [estimateRes, FCOutcome.best?] using h.symm
      subst h
      simpa [estimateRes, FCOutcome.rankingL] using
        headI_mem_of_ne_nil (baselineSort_ne_nil hsne)
    · dsimp only at h ⊢
      by_cases hb : (bestOf (rerank (annotate ds us
          ((baselineSort scored).take 25) 0))).driveKm.isSome
      · rw [if_pos hb] at h ⊢
        replace h : b = bestOf (rerank (annotate ds us
            ((baselineSort scored).take 25) 0)) := by
          simpa [FCOutcome.best?] using h.symm
        subst h
        simpa [FCOutcome.rankingL] using
          bestOf_mem (rerank_ne_nil (candidates_ne_nil hsne))
      · rw [if_neg hb] at h ⊢
        replace h : b = (baselineSort scored).headI := by
          simpa [estimateRes, FCOutcome.best?] using h.symm
        subst h
        simpa [estimateRes, FCOutcome.rankingL] using
          headI_mem_of_ne_nil (baselineSort_ne_nil hsne)

/-- C5: a technician whose coordinate resolves at no tier is skipped by
the scoring loop (never scored, so the scored list counts exactly the
resolvable entries) and never appears in the displayed ranking, in the
returned best entry, or in the eight-entry shortlist. -/
theorem claim_C5 (ov : String → Option Coord) (pp : String → Option String)
    (roster : List Tech) (pi tt : String) (bf sp : ℝ) (orsC : Bool)
    (ors : OrsOutcome) (t : Tech) (_hmem : t ∈ roster)
    (hunres : resolveTech ov pp t = none) :
    (∀ s ∈ (findClosest ov pp roster pi tt bf sp orsC ors).rankingL,
      s.tech ≠ t) ∧
    (∀ b, (findClosest ov pp roster pi tt bf sp orsC ors).best? = some b →
      b.tech ≠ t) ∧
    (∀ s ∈ renderTop (findClosest ov pp roster pi tt bf sp orsC ors).rankingL,
      s.tech ≠ t) ∧
    (∀ tLL, ∀ s ∈ mkScored ov pp tLL roster, s.tech ≠ t) ∧
    (∀ tLL, (mkScored ov pp tLL roster).length =
      (roster.filter (fun x => (resolveTech ov pp x).isSome)).length) := by
  have hskip : ∀ tLL, ∀ s ∈ mkScored ov pp tLL roster, s.tech ≠ t := by
    intro tLL s hs hcon
    obtain ⟨-, hres⟩ := mem_mkScored hs
    rw [hcon, hunres] at hres
    exact Option.noConfusion hres
  have hrank : ∀ s ∈ (findClosest ov pp roster pi tt bf sp orsC ors).rankingL,
      s.tech ≠ t := by
    intro s hs
    rcases findClosest_cases ov pp roster pi tt bf sp orsC ors with
      hout | hout | ⟨tLL, -, hout⟩
    · rw [hout] at hs
      exact absurd hs (List.not_mem_nil s)
    · rw [hout] at hs
      exact absurd hs (List.not_mem_nil s)
    · rw [hout] at hs
      obtain ⟨c, hc, hts, -⟩ := mem_rankingL_afterResolve hs
      rw [hts]
      exact hskip tLL c hc
  refine ⟨hrank, ?_, ?_, hskip, fun tLL => mkScored_length ov pp tLL roster⟩
  · intro b hb
    rcases findClosest_cases ov pp roster pi tt bf sp orsC ors with
      hout | hout | ⟨tLL, -, hout⟩
    · rw [hout] at hb
      exact absurd hb (by simp [FCOutcome.best?])
    · rw [hout] at hb
      exact absurd hb (by simp [FCOutcome.best?])
    · rw [hout] at hb
      have := afterResolve_best_mem hb
      rw [← hout] at this
      exact hrank b this
  · intro s hs
    exact hrank s (List.take_subset 8 _ hs)

/-- Witness for C5: a two-entry roster with one resolvable technician
and one whose garbage postal resolves at no tier. -/
theorem claim_C5_witness :
    (∀ s ∈ (findClosest (fun _ => none) (fun _ => none)
        [⟨"1", "Alice", "", "AB", "T1A1A1"⟩, ⟨"2", "Bob", "", "", "ZZZ"⟩]
        "K1A0B1" "" 1 80 false OrsOutcome.netErr).rankingL,
      s.tech ≠ ⟨"2", "Bob", "", "", "ZZZ"⟩) ∧
    (∀ b, (findClosest (fun _ => none) (fun _ => none)
        [⟨"1", "Alice", "", "AB", "T1A1A1"⟩, ⟨"2", "Bob", "", "", "ZZZ"⟩]
        "K1A0B1" "" 1 80 false OrsOutcome.netErr).best? = some b →
      b.tech ≠ ⟨"2", "Bob", "", "", "ZZZ"⟩) ∧
    (∀ s ∈ renderTop (findClosest (fun _ => none) (fun _ => none)
        [⟨"1", "Alice", "", "AB", "T1A1A1"⟩, ⟨"2", "Bob", "", "", "ZZZ"⟩]
        "K1A0B1" "" 1 80 false OrsOutcome.netErr).rankingL,
      s.tech ≠ ⟨"2", "Bob", "", "", "ZZZ"⟩) ∧
    (∀ tLL, ∀ s ∈ mkScored (fun _ => none) (fun _ => none) tLL
        [⟨"1", "Alice", "", "AB", "T1A1A1"⟩, ⟨"2", "Bob", "", "", "ZZZ"⟩],
      s.tech ≠ ⟨"2", "Bob", "", "", "ZZZ"⟩) ∧
    (∀ tLL, (mkScored (fun _ => none) (fun _ => none) tLL
        [⟨"1", "Alice", "", "AB", "T1A1A1"⟩, ⟨"2", "Bob", "", "", "ZZZ"⟩]).length =
      ([⟨"1", "Alice", "", "AB", "T1A1A1"⟩,
        ⟨"2", "Bob", "", "", "ZZZ"⟩].filter
          (fun x => (resolveTech (fun _ => none) (fun _ => none) x).isSome)).length) :=
  claim_C5 (fun _ => none) (fun _ => none)
    [⟨"1", "Alice", "", "AB", "T1A1A1"⟩, ⟨"2", "Bob", "", "", "ZZZ"⟩]
    "K1A0B1" "" 1 80 false OrsOutcome.netErr ⟨"2", "Bob", "", "", "ZZZ"⟩
    (by decide) rfl

/-- C2: on every gateway failure (network error, non-success HTTP
response, unparsable body, or a body without ok) the parsed gateway
result is empty and findClosest returns a non-error estimate-mode
result whose best entry is the head of the baseline straight-line
ranking, carrying its straight-line kilometers and the
effective-factor-adjusted distance, with the factor clamped into
[1, 12]. -/
theorem claim_C2 (ov : String → Option Coord) (pp : String → Option String)
    (roster : List Tech) (pi tt : String) (bf sp : ℝ) (ors : OrsOutcome)
    (tLL : LL)
    (hfail : ors = OrsOutcome.netErr ∨
      (∃ b, ors = OrsOutcome.httpResp false b) ∨
      ors = OrsOutcome.httpResp true none ∨
      (∃ b, ors = OrsOutcome.httpResp true (some b) ∧ b.ok = false))
    (hp : resolveInputPostal pi tt ≠ "")
    (hll : latLonForPostal ov pp (resolveInputPostal pi tt) "" "" = some tLL)
    (hscored : mkScored ov pp tLL roster ≠ []) :
    gwParse ors = none ∧
    (let sorted := baselineSort (mkScored ov pp tLL roster)
    let eff := effectiveDriveFactor (JSVal.fin (clampBase bf)) (some tLL)
      (some sorted.headI.ll)
    findClosest ov pp roster pi tt bf sp true ors =
      FCOutcome.result
        { mode := Mode.estimate
          best := sorted.headI
          ranking := sorted
          effFactor := some eff
          driveKmShown := some (sorted.headI.km * eff)
          etaText := etaFromKm (sorted.headI.km * eff) (clampSpeed sp) } ∧
    1 ≤ eff ∧ eff ≤ 12) := by
  have hgw : gwParse ors = none := by
    rcases hfail with rfl | ⟨b, rfl⟩ | rfl | ⟨b, rfl, hok⟩ <;>
      simp [gwParse]
    exact hok
  refine ⟨hgw, ?_, clampNum_mem _⟩
  rw [findClosest_eq_afterResolve hp hll]
  show afterResolve (clampBase bf) (clampSpeed sp) (gwParse ors) tLL
    (mkScored ov pp tLL roster) = _
  rw [hgw, afterResolve_none_eq hscored]
  rfl

/-- Witness for C2: a one-technician roster and an HTTP 502 response
from the gateway. -/
theorem claim_C2_witness :
    gwParse (OrsOutcome.httpResp false none) = none ∧
    (let sorted := baselineSort (mkScored (fun _ => none) (fun _ => none)
      ⟨43.6532, -79.3832, Prec.prov, "ON", ""⟩
      [⟨"1", "Alice", "", "AB", "T1A1A1"⟩])
    let eff := effectiveDriveFactor (JSVal.fin (clampBase 1.25))
      (some ⟨43.6532, -79.3832, Prec.prov, "ON", ""⟩) (some sorted.headI.ll)
    findClosest (fun _ => none) (fun _ => none)
      [⟨"1", "Alice", "", "AB", "T1A1A1"⟩] "K1A0B1" "" 1.25 80 true
      (OrsOutcome.httpResp false none) =
      FCOutcome.result
        { mode := Mode.estimate
          best := sorted.headI
          ranking := sorted
          effFactor := some eff
          driveKmShown := some (sorted.headI.km * eff)
          etaText := etaFromKm (sorted.headI.km * eff) (clampSpeed 80) } ∧
    1 ≤ eff ∧ eff ≤ 12) :=
  claim_C2 (fun _ => none) (fun _ => none)
    [⟨"1", "Alice", "", "AB", "T1A1A1"⟩] "K1A0B1" "" 1.25 80
    (OrsOutcome.httpResp false none) ⟨43.6532, -79.3832, Prec.prov, "ON", ""⟩
    (Or.inr (Or.inl ⟨none, rfl⟩)) (by decide) rfl
    (by
      rw [mkScored_cons_some
        (show resolveTech (fun _ => none) (fun _ => none)
          ⟨"1", "Alice", "", "AB", "T1A1A1"⟩ =
          some ⟨53.5461, -113.4938, Prec.prov, "AB", ""⟩ from rfl)]
      exact List.cons_ne_nil _ _)

theorem annotate_map_tech (ds us : List (Option ℝ)) :
    ∀ (l : List Scored) (i : ℕ),
      (annotate ds us l i).map (fun s => s.tech) = l.map (fun s => s.tech) := by
  intro l
  induction l with
  | nil => intro i; rfl
  | cons c cs ih => intro i; simpa [annotate] using ih (i + 1)

theorem afterResolve_some_eq {bf sp : ℝ} {tLL : LL} {scored : List Scored}
    {ds us : List (Option ℝ)} (h : scored ≠ []) :
    afterResolve bf sp (some (ds, us)) tLL scored =
      (if (bestOf (rerank (annotate ds us
          ((baselineSort scored).take 25) 0))).driveKm.isSome then
        FCOutcome.result
          { mode := Mode.driving
            best := bestOf (rerank (annotate ds us
              ((baselineSort scored).take 25) 0))
            ranking := rerank (annotate ds us ((baselineSort scored).take 25) 0)
            effFactor := none
            driveKmShown := (bestOf (rerank (annotate ds us
              ((baselineSort scored).take 25) 0))).driveKm
            etaText := etaFromMinutes (bestOf (rerank (annotate ds us
              ((baselineSort scored).take 25) 0))).driveMin }
      else estimateRes bf sp tLL (baselineSort scored)) := by
  unfold afterResolve
  rw [if_neg (fun hcon => h (List.isEmpty_iff.1 hcon))]

/-- C1 amended: the baseline ranking sorts the scored technicians
ascending by straight-line distance; the gateway request carries the
postals of the top 25 baseline candidates; on gateway success that
candidate subset is re-ranked by driving duration ascending then
driving distance ascending, a null value being replaced by the
sentinel 1e12 (so a null sorts after every realistic value but not
after values exceeding the sentinel); and the re-ranked order is the
final ranking exactly when the selected best entry carries a driving
distance, the baseline order being rendered otherwise. -/
theorem claim_C1_amended (ov : String → Option Coord)
    (pp : String → Option String) (roster : List Tech) (pi tt : String)
    (bf sp : ℝ) (ors : OrsOutcome) (ds us : List (Option ℝ)) (tLL : LL)
    (hp : resolveInputPostal pi tt ≠ "")
    (hll : latLonForPostal ov pp (resolveInputPostal pi tt) "" "" = some tLL)
    (hscored : mkScored ov pp tLL roster ≠ [])
    (hgw : gwParse ors = some (ds, us)) :
    let sorted := baselineSort (mkScored ov pp tLL roster)
    let reranked := rerank (annotate ds us (sorted.take 25) 0)
    List.Sorted rKm sorted ∧
    List.Perm sorted (mkScored ov pp tLL roster) ∧
    orsRequestPostals ov pp tLL roster =
      (sorted.take 25).map (fun s => s.tech.postal) ∧
    List.Sorted rDrive reranked ∧
    List.Perm (reranked.map (fun s => s.tech))
      ((sorted.take 25).map (fun s => s.tech)) ∧
    ((bestOf reranked).driveKm.isSome = true →
      findClosest ov pp roster pi tt bf sp true ors =
        FCOutcome.result
          { mode := Mode.driving
            best := bestOf reranked
            ranking := reranked
            effFactor := none
            driveKmShown := (bestOf reranked).driveKm
            etaText := etaFromMinutes (bestOf reranked).driveMin }) ∧
    ((bestOf reranked).driveKm.isSome = false →
      (findClosest ov pp roster pi tt bf sp true ors).modeL =
        some Mode.estimate ∧
      (findClosest ov pp roster pi tt bf sp true ors).rankingL = sorted) := by
  intro sorted reranked
  have hfc : findClosest ov pp roster pi tt bf sp true ors =
      afterResolve (clampBase bf) (clampSpeed sp) (some (ds, us)) tLL
        (mkScored ov pp tLL roster) := by
    rw [findClosest_eq_afterResolve hp hll]
    show afterResolve _ _ (gwParse ors) _ _ = _
    rw [hgw]
  refine ⟨List.sorted_insertionSort rKm _, List.perm_insertionSort rKm _,
    rfl, List.sorted_insertionSort rDrive _, ?_, ?_, ?_⟩
  · have h1 := (List.perm_insertionSort rDrive
      (annotate ds us (sorted.take 25) 0)).map (fun s => s.tech)
    rw [annotate_map_tech] at h1
    exact h1
  · intro hbest
    rw [hfc, afterResolve_some_eq hscored, if_pos hbest]
  · intro hbest
    rw [hfc, afterResolve_some_eq hscored,
      if_neg (fun hcon => by rw [hbest] at hcon; exact Bool.noConfusion hcon)]
    exact ⟨rfl, rfl⟩


theorem if_true_bool {α : Type _} (a b : α) : (if true = true then a else b) = a := rfl

theorem baselineSort_pair_same_km {a b : Scored} (h : a.km = b.km) :
    baselineSort [a, b] = [a, b] := by
  unfold baselineSort
  simp only [List.insertionSort, List.orderedInsert]
  have hr : rKm a b := le_of_eq h
  rw [if_pos hr]

theorem rerank_pair_flip {a b : Scored} (h : dMinKey b < dMinKey a) :
    rerank [a, b] = [b, a] := by
  unfold rerank
  simp only [List.insertionSort, List.orderedInsert]
  have hr : ¬ rDrive a b := by
    rintro (hlt | ⟨heq, -⟩)
    · exact absurd h (not_lt.2 (le_of_lt hlt))
    · rw [heq] at h
      exact lt_irrefl _ h
  rw [if_neg hr]

/-- Counterexample to C1 as stated: with two technicians at the same
location and a successful gateway response giving the first a driving
duration of 2e12 and the second a null duration, the final driving-mode
ranking places the null-duration candidate first, not last: the source
comparator replaces null by the finite sentinel 1e12 rather than by
positive infinity. -/
theorem claim_C1_cx :
    (findClosest (fun _ => some ⟨0, 0⟩) (fun _ => none)
      [⟨"1", "A", "", "", "A1A1A1"⟩, ⟨"2", "B", "", "", "A1A1A1"⟩]
      "A1A1A1" "" 1 80 true
      (OrsOutcome.httpResp true (some ⟨true, some [some 1, some 1],
        some [some 2000000000000, none]⟩))).modeL = some Mode.driving ∧
    (findClosest (fun _ => some ⟨0, 0⟩) (fun _ => none)
      [⟨"1", "A", "", "", "A1A1A1"⟩, ⟨"2", "B", "", "", "A1A1A1"⟩]
      "A1A1A1" "" 1 80 true
      (OrsOutcome.httpResp true (some ⟨true, some [some 1, some 1],
        some [some 2000000000000, none]⟩))).rankingL.map
          (fun s => s.driveMin) = [none, some 2000000000000] := by
  rw [findClosest_eq_afterResolve (by decide)
    (show latLonForPostal (fun _ => some ⟨0, 0⟩) (fun _ => none)
      (resolveInputPostal "A1A1A1" "") "" "" =
      some ⟨0, 0, Prec.postal, "NL", ""⟩ from rfl)]
  rw [if_true_bool]
  rw [show gwParse (OrsOutcome.httpResp true (some ⟨true, some [some 1, some 1],
      some [some 2000000000000, none]⟩)) =
    some ([some 1, some 1], [some 2000000000000, none]) from rfl]
  rw [mkScored_cons_some (show resolveTech (fun _ => some ⟨0, 0⟩)
      (fun _ => none) ⟨"1", "A", "", "", "A1A1A1"⟩ =
      some ⟨0, 0, Prec.postal, "NL", ""⟩ from rfl),
    mkScored_cons_some (show resolveTech (fun _ => some ⟨0, 0⟩)
      (fun _ => none) ⟨"2", "B", "", "", "A1A1A1"⟩ =
      some ⟨0, 0, Prec.postal, "NL", ""⟩ from rfl),
    show mkScored (fun _ => some ⟨0, 0⟩) (fun _ => none)
      ⟨0, 0, Prec.postal, "NL", ""⟩ [] = [] from rfl]
  rw [afterResolve_some_eq (List.cons_ne_nil _ _)]
  generalize haversineKm ⟨0, 0, Prec.postal, "NL", ""⟩
    ⟨0, 0, Prec.postal, "NL", ""⟩ = K
  have hsort : baselineSort
      [(⟨⟨"1", "A", "", "", "A1A1A1"⟩, K, K * 0.621371,
          ⟨0, 0, Prec.postal, "NL", ""⟩, none, none, none⟩ : Scored),
        ⟨⟨"2", "B", "", "", "A1A1A1"⟩, K, K * 0.621371,
          ⟨0, 0, Prec.postal, "NL", ""⟩, none, none, none⟩] =
      [⟨⟨"1", "A", "", "", "A1A1A1"⟩, K, K * 0.621371,
          ⟨0, 0, Prec.postal, "NL", ""⟩, none, none, none⟩,
        ⟨⟨"2", "B", "", "", "A1A1A1"⟩, K, K * 0.621371,
          ⟨0, 0, Prec.postal, "NL", ""⟩, none, none, none⟩] :=
    baselineSort_pair_same_km rfl
  rw [hsort]
  have hann : annotate [some 1, some 1] [some 2000000000000, none]
      (([⟨⟨"1", "A", "", "", "A1A1A1"⟩, K, K * 0.621371,
          ⟨0, 0, Prec.postal, "NL", ""⟩, none, none, none⟩,
        ⟨⟨"2", "B", "", "", "A1A1A1"⟩, K, K * 0.621371,
          ⟨0, 0, Prec.postal, "NL", ""⟩, none, none, none⟩] : List Scored).take 25)
        0 =
      [⟨⟨"1", "A", "", "", "A1A1A1"⟩, K, K * 0.621371,
        ⟨0, 0, Prec.postal, "NL", ""⟩, some 1, some (1 * 0.621371),
        some 2000000000000⟩,
       ⟨⟨"2", "B", "", "", "A1A1A1"⟩, K, K * 0.621371,
        ⟨0, 0, Prec.postal, "NL", ""⟩, some 1, some (1 * 0.621371), none⟩] := rfl
  rw [hann]
  have hkey : dMinKey (⟨⟨"2", "B", "", "", "A1A1A1"⟩, K, K * 0.621371,
        ⟨0, 0, Prec.postal, "NL", ""⟩, some 1, some (1 * 0.621371), none⟩ : Scored) <
      dMinKey (⟨⟨"1", "A", "", "", "A1A1A1"⟩, K, K * 0.621371,
        ⟨0, 0, Prec.postal, "NL", ""⟩, some 1, some (1 * 0.621371),
        some 2000000000000⟩ : Scored) := by
    norm_num [dMinKey]
  rw [rerank_pair_flip hkey]
  exact ⟨rfl, rfl⟩

/-- Witness for the amended C1 at a one-technician roster with a
successful gateway round trip. -/
theorem claim_C1_witness :
    (let sorted := baselineSort (mkScored (fun _ => some ⟨0, 0⟩) (fun _ => none)
      ⟨0, 0, Prec.postal, "NL", ""⟩ [⟨"1", "A", "", "", "A1A1A1"⟩])
    let reranked := rerank (annotate [some 5] [some 10] (sorted.take 25) 0)
    List.Sorted rKm sorted ∧
    List.Perm sorted (mkScored (fun _ => some ⟨0, 0⟩) (fun _ => none)
      ⟨0, 0, Prec.postal, "NL", ""⟩ [⟨"1", "A", "", "", "A1A1A1"⟩]) ∧
    orsRequestPostals (fun _ => some ⟨0, 0⟩) (fun _ => none)
      ⟨0, 0, Prec.postal, "NL", ""⟩ [⟨"1", "A", "", "", "A1A1A1"⟩] =
      (sorted.take 25).map (fun s => s.tech.postal) ∧
    List.Sorted rDrive reranked ∧
    List.Perm (reranked.map (fun s => s.tech))
      ((sorted.take 25).map (fun s => s.tech)) ∧
    ((bestOf reranked).driveKm.isSome = true →
      findClosest (fun _ => some ⟨0, 0⟩) (fun _ => none)
        [⟨"1", "A", "", "", "A1A1A1"⟩] "A1A1A1" "" 1 80 true
        (OrsOutcome.httpResp true (some ⟨true, some [some 5], some [some 10]⟩)) =
        FCOutcome.result
          { mode := Mode.driving
            best := bestOf reranked
            ranking := reranked
            effFactor := none
            driveKmShown := (bestOf reranked).driveKm
            etaText := etaFromMinutes (bestOf reranked).driveMin }) ∧
    ((bestOf reranked).driveKm.isSome = false →
      (findClosest (fun _ => some ⟨0, 0⟩) (fun _ => none)
        [⟨"1", "A", "", "", "A1A1A1"⟩] "A1A1A1" "" 1 80 true
        (OrsOutcome.httpResp true
          (some ⟨true, some [some 5], some [some 10]⟩))).modeL =
        some Mode.estimate ∧
      (findClosest (fun _ => some ⟨0, 0⟩) (fun _ => none)
        [⟨"1", "A", "", "", "A1A1A1"⟩] "A1A1A1" "" 1 80 true
        (OrsOutcome.httpResp true
          (some ⟨true, some [some 5], some [some 10]⟩))).rankingL = sorted)) :=
  claim_C1_amended (fun _ => some ⟨0, 0⟩) (fun _ => none)
    [⟨"1", "A", "", "", "A1A1A1"⟩] "A1A1A1" "" 1 80
    (OrsOutcome.httpResp true (some ⟨true, some [some 5], some [some 10]⟩))
    [some 5] [some 10] ⟨0, 0, Prec.postal, "NL", ""⟩
    (by decide) rfl
    (by
      rw [mkScored_cons_some (show resolveTech (fun _ => some ⟨0, 0⟩)
        (fun _ => none) ⟨"1", "A", "", "", "A1A1A1"⟩ =
        some ⟨0, 0, Prec.postal, "NL", ""⟩ from rfl)]
      exact List.cons_ne_nil _ _)
    rfl

/-- C10 amended: on gateway success the selected best entry is the
first re-ranked candidate with both driving fields when one exists
(and then both of its driving fields are non-null); when none exists
the best entry falls back to the head of the re-ranked order; the
driving display is used exactly when that best entry carries a driving
distance (so its duration may still be null); and when no candidate
carries a driving distance the result is presented in estimate mode
despite the successful gateway call. -/
theorem claim_C10_amended (ov : String → Option Coord)
    (pp : String → Option String) (roster : List Tech) (pi tt : String)
    (bf sp : ℝ) (ors : OrsOutcome) (ds us : List (Option ℝ)) (tLL : LL)
    (reranked : List Scored)
    (hp : resolveInputPostal pi tt ≠ "")
    (hll : latLonForPostal ov pp (resolveInputPostal pi tt) "" "" = some tLL)
    (hscored : mkScored ov pp tLL roster ≠ [])
    (hgw : gwParse ors = some (ds, us))
    (hrr : reranked = rerank (annotate ds us
      ((baselineSort (mkScored ov pp tLL roster)).take 25) 0)) :
    (∀ c, reranked.find? hasDrive = some c →
      bestOf reranked = c ∧ c.driveKm.isSome = true ∧
      c.driveMin.isSome = true) ∧
    ((∃ c ∈ reranked, hasDrive c = true) →
      ∃ c, reranked.find? hasDrive = some c) ∧
    (reranked.find? hasDrive = none → bestOf reranked = reranked.headI) ∧
    ((bestOf reranked).driveKm.isSome = true →
      findClosest ov pp roster pi tt bf sp true ors =
        FCOutcome.result
          { mode := Mode.driving
            best := bestOf reranked
            ranking := reranked
            effFactor := none
            driveKmShown := (bestOf reranked).driveKm
            etaText := etaFromMinutes (bestOf reranked).driveMin }) ∧
    ((∀ c ∈ reranked, c.driveKm = none) →
      (findClosest ov pp roster pi tt bf sp true ors).modeL =
        some Mode.estimate ∧
      (findClosest ov pp roster pi tt bf sp true ors).rankingL =
        baselineSort (mkScored ov pp tLL roster)) := by
  have hfc : findClosest ov pp roster pi tt bf sp true ors =
      (if (bestOf reranked).driveKm.isSome then
        FCOutcome.result
          { mode := Mode.driving
            best := bestOf reranked
            ranking := reranked
            effFactor := none
            driveKmShown := (bestOf reranked).driveKm
            etaText := etaFromMinutes (bestOf reranked).driveMin }
      else estimateRes (clampBase bf) (clampSpeed sp) tLL
        (baselineSort (mkScored ov pp tLL roster))) := by
    rw [findClosest_eq_afterResolve hp hll, if_true_bool, hgw,
      afterResolve_some_eq hscored, ← hrr]
  refine ⟨?_, ?_, ?_, ?_, ?_⟩
  · intro c hc
    have hbc : bestOf reranked = c := by
      unfold bestOf
      rw [hc]
      rfl
    have hdr := List.find?_some hc
    simp only [hasDrive, Bool.and_eq_true] at hdr
    exact ⟨hbc, hdr.1, hdr.2⟩
  · rintro ⟨c, hmem, hdr⟩
    rcases hf : reranked.find? hasDrive with _ | c2
    · exact absurd hdr (by simpa using List.find?_eq_none.1 hf c hmem)
    · exact ⟨c2, rfl⟩
  · intro hnone
    unfold bestOf
    rw [hnone]
    rfl
  · intro hbest
    rw [hfc, if_pos hbest]
  · intro hall
    have hne : reranked ≠ [] := by
      rw [hrr]
      exact rerank_ne_nil (candidates_ne_nil hscored)
    have hfind : reranked.find? hasDrive = none :=
      List.find?_eq_none.2 (fun x hx => by
        simp [hasDrive, hall x hx])
    have hbest : bestOf reranked = reranked.headI := by
      unfold bestOf
      rw [hfind]
      rfl
    have hcond : ¬ ((bestOf reranked).driveKm.isSome = true) := by
      rw [hbest, hall _ (headI_mem_of_ne_nil hne)]
      simp
    rw [hfc, if_neg hcond]
    exact ⟨rfl, rfl⟩

/-- Counterexample to C10 as stated: a successful gateway call where
the single candidate has a driving distance but a null duration still
produces a driving-mode result, although no candidate has both driving
fields, so the driving-mode best entry is not a candidate with both a
non-null distance and a non-null duration. -/
theorem claim_C10_cx :
    (findClosest (fun _ => some ⟨0, 0⟩) (fun _ => none)
      [⟨"1", "A", "", "", "A1A1A1"⟩] "A1A1A1" "" 1 80 true
      (OrsOutcome.httpResp true
        (some ⟨true, some [some 7], some [none]⟩))).modeL =
      some Mode.driving ∧
    (findClosest (fun _ => some ⟨0, 0⟩) (fun _ => none)
      [⟨"1", "A", "", "", "A1A1A1"⟩] "A1A1A1" "" 1 80 true
      (OrsOutcome.httpResp true
        (some ⟨true, some [some 7], some [none]⟩))).best?.map
          (fun b => b.driveMin) = some none ∧
    (findClosest (fun _ => some ⟨0, 0⟩) (fun _ => none)
      [⟨"1", "A", "", "", "A1A1A1"⟩] "A1A1A1" "" 1 80 true
      (OrsOutcome.httpResp true
        (some ⟨true, some [some 7], some [none]⟩))).best?.map
          (fun b => b.driveKm) = some (some 7) ∧
    (findClosest (fun _ => some ⟨0, 0⟩) (fun _ => none)
      [⟨"1", "A", "", "", "A1A1A1"⟩] "A1A1A1" "" 1 80 true
      (OrsOutcome.httpResp true
        (some ⟨true, some [some 7], some [none]⟩))).rankingL.map hasDrive =
      [false] :=
  ⟨rfl, rfl, rfl, rfl⟩

/-- Witness for the amended C10 at a one-technician roster with full
driving data. -/
theorem claim_C10_witness :
    (∀ c, (rerank (annotate [some 3] [some 4]
        ((baselineSort (mkScored (fun _ => some ⟨0, 0⟩) (fun _ => none)
          ⟨0, 0, Prec.postal, "NS", ""⟩
          [⟨"9", "Z", "", "", "B2B2B2"⟩])).take 25) 0)).find? hasDrive =
          some c →
      bestOf (rerank (annotate [some 3] [some 4]
        ((baselineSort (mkScored (fun _ => some ⟨0, 0⟩) (fun _ => none)
          ⟨0, 0, Prec.postal, "NS", ""⟩
          [⟨"9", "Z", "", "", "B2B2B2"⟩])).take 25) 0)) = c ∧
      c.driveKm.isSome = true ∧ c.driveMin.isSome = true) ∧
    ((∃ c ∈ rerank (annotate [some 3] [some 4]
        ((baselineSort (mkScored (fun _ => some ⟨0, 0⟩) (fun _ => none)
          ⟨0, 0, Prec.postal, "NS", ""⟩
          [⟨"9", "Z", "", "", "B2B2B2"⟩])).take 25) 0), hasDrive c = true) →
      ∃ c, (rerank (annotate [some 3] [some 4]
        ((baselineSort (mkScored (fun _ => some ⟨0, 0⟩) (fun _ => none)
          ⟨0, 0, Prec.postal, "NS", ""⟩
          [⟨"9", "Z", "", "", "B2B2B2"⟩])).take 25) 0)).find? hasDrive =
          some c) ∧
    ((rerank (annotate [some 3] [some 4]
        ((baselineSort (mkScored (fun _ => some ⟨0, 0⟩) (fun _ => none)
          ⟨0, 0, Prec.postal, "NS", ""⟩
          [⟨"9", "Z", "", "", "B2B2B2"⟩])).take 25) 0)).find? hasDrive = none →
      bestOf (rerank (annotate [some 3] [some 4]
        ((baselineSort (mkScored (fun _ => some ⟨0, 0⟩) (fun _ => none)
          ⟨0, 0, Prec.postal, "NS", ""⟩
          [⟨"9", "Z", "", "", "B2B2B2"⟩])).take 25) 0)) =
      (rerank (annotate [some 3] [some 4]
        ((baselineSort (mkScored (fun _ => some ⟨0, 0⟩) (fun _ => none)
          ⟨0, 0, Prec.postal, "NS", ""⟩
          [⟨"9", "Z", "", "", "B2B2B2"⟩])).take 25) 0)).headI) ∧
    ((bestOf (rerank (annotate [some 3] [some 4]
        ((baselineSort (mkScored (fun _ => some ⟨0, 0⟩) (fun _ => none)
          ⟨0, 0, Prec.postal, "NS", ""⟩
          [⟨"9", "Z", "", "", "B2B2B2"⟩])).take 25) 0))).driveKm.isSome = true →
      findClosest (fun _ => some ⟨0, 0⟩) (fun _ => none)
        [⟨"9", "Z", "", "", "B2B2B2"⟩] "B2B2B2" "" 1 80 true
        (OrsOutcome.httpResp true (some ⟨true, some [some 3], some [some 4]⟩)) =
        FCOutcome.result
          { mode := Mode.driving
            best := bestOf (rerank (annotate [some 3] [some 4]
              ((baselineSort (mkScored (fun _ => some ⟨0, 0⟩) (fun _ => none)
                ⟨0, 0, Prec.postal, "NS", ""⟩
                [⟨"9", "Z", "", "", "B2B2B2"⟩])).take 25) 0))
            ranking := rerank (annotate [some 3] [some 4]
              ((baselineSort (mkScored (fun _ => some ⟨0, 0⟩) (fun _ => none)
                ⟨0, 0, Prec.postal, "NS", ""⟩
                [⟨"9", "Z", "", "", "B2B2B2"⟩])).take 25) 0)
            effFactor := none
            driveKmShown := (bestOf (rerank (annotate [some 3] [some 4]
              ((baselineSort (mkScored (fun _ => some ⟨0, 0⟩) (fun _ => none)
                ⟨0, 0, Prec.postal, "NS", ""⟩
                [⟨"9", "Z", "", "", "B2B2B2"⟩])).take 25) 0))).driveKm
            etaText := etaFromMinutes (bestOf (rerank (annotate [some 3]
              [some 4] ((baselineSort (mkScored (fun _ => some ⟨0, 0⟩)
                (fun _ => none) ⟨0, 0, Prec.postal, "NS", ""⟩
                [⟨"9", "Z", "", "", "B2B2B2"⟩])).take 25) 0))).driveMin }) ∧
    ((∀ c ∈ rerank (annotate [some 3] [some 4]
        ((baselineSort (mkScored (fun _ => some ⟨0, 0⟩) (fun _ => none)
          ⟨0, 0, Prec.postal, "NS", ""⟩
          [⟨"9", "Z", "", "", "B2B2B2"⟩])).take 25) 0), c.driveKm = none) →
      (findClosest (fun _ => some ⟨0, 0⟩) (fun _ => none)
        [⟨"9", "Z", "", "", "B2B2B2"⟩] "B2B2B2" "" 1 80 true
        (OrsOutcome.httpResp true
          (some ⟨true, some [some 3], some [some 4]⟩))).modeL =
        some Mode.estimate ∧
      (findClosest (fun _ => some ⟨0, 0⟩) (fun _ => none)
        [⟨"9", "Z", "", "", "B2B2B2"⟩] "B2B2B2" "" 1 80 true
        (OrsOutcome.httpResp true
          (some ⟨true, some [some 3], some [some 4]⟩))).rankingL =
        baselineSort (mkScored (fun _ => some ⟨0, 0⟩) (fun _ => none)
          ⟨0, 0, Prec.postal, "NS", ""⟩ [⟨"9", "Z", "", "", "B2B2B2"⟩])) :=
  claim_C10_amended (fun _ => some ⟨0, 0⟩) (fun _ => none)
    [⟨"9", "Z", "", "", "B2B2B2"⟩] "B2B2B2" "" 1 80
    (OrsOutcome.httpResp true (some ⟨true, some [some 3], some [some 4]⟩))
    [some 3] [some 4] ⟨0, 0, Prec.postal, "NS", ""⟩
    (rerank (annotate [some 3] [some 4]
      ((baselineSort (mkScored (fun _ => some ⟨0, 0⟩) (fun _ => none)
        ⟨0, 0, Prec.postal, "NS", ""⟩
        [⟨"9", "Z", "", "", "B2B2B2"⟩])).take 25) 0))
    (by decide) rfl
    (by
      rw [mkScored_cons_some (show resolveTech (fun _ => some ⟨0, 0⟩)
        (fun _ => none) ⟨"9", "Z", "", "", "B2B2B2"⟩ =
        some ⟨0, 0, Prec.postal, "NS", ""⟩ from rfl)]
      exact List.cons_ne_nil _ _)
    rfl rfl

/-! ### Lemmas about the routing gateway client -/

theorem allGeo_cons (geo : String → GeoRes) (p : String) (ps : List String) :
    allGeo geo (p :: ps) = (geocodeCA geo p).bind (fun x =>
      (allGeo geo ps).bind (fun xs => Except.ok (x :: xs))) := rfl

theorem allGeo_length {geo : String → GeoRes} :
    ∀ {l : List String} {r : List (Option (ℝ × ℝ))},
      allGeo geo l = .ok r → r.length = l.length := by
  intro l
  induction l with
  | nil =>
      intro r h
      injection h with h2
      rw [← h2]
      rfl
  | cons p ps ih =>
      intro r h
      rw [allGeo_cons] at h
      rcases hg : geocodeCA geo p with e | x
      · rw [hg] at h
        simp [Except.bind] at h
      · rw [hg] at h
        rcases ha : allGeo geo ps with e2 | xs
        · rw [ha] at h
          simp [Except.bind] at h
        · rw [ha] at h
          simp only [Except.bind] at h
          injection h with h2
          rw [← h2]
          simp [ih ha]

theorem allGeo_get {geo : String → GeoRes} :
    ∀ {l : List String} {r : List (Option (ℝ × ℝ))},
      allGeo geo l = .ok r → ∀ i p, l.get? i = some p →
        geocodeCA geo p = .ok none → r.get? i = some none := by
  intro l
  induction l with
  | nil =>
      intro r h i p hip
      simp at hip
  | cons q qs ih =>
      intro r h i p hip hnone
      rw [allGeo_cons] at h
      rcases hg : geocodeCA geo q with e | x
      · rw [hg] at h
        simp [Except.bind] at h
      · rw [hg] at h
        rcases ha : allGeo geo qs with e2 | xs
        · rw [ha] at h
          simp [Except.bind] at h
        · rw [ha] at h
          simp only [Except.bind] at h
          injection h with h2
          subst h2
          cases i with
          | zero =>
              simp only [List.get?] at hip
              injection hip with hip2
              subst hip2
              rw [hnone] at hg
              injection hg with hg2
              simp [← hg2]
          | succ j =>
              simp only [List.get?] at hip ⊢
              exact ih ha j p hip hnone

theorem expandRow_length (f : ℝ → ℝ) :
    ∀ (dr : List (Option (ℝ × ℝ))) (vals : List (Option ℝ)),
      (expandRow f dr vals).length = dr.length := by
  intro dr
  induction dr with
  | nil => intro vals; rfl
  | cons o rest ih =>
      intro vals
      cases o with
      | none => simpa [expandRow] using ih vals
      | some v => simpa [expandRow] using ih vals.tail

theorem expandRow_get_none (f : ℝ → ℝ) :
    ∀ (dr : List (Option (ℝ × ℝ))) (vals : List (Option ℝ)) (i : ℕ),
      dr.get? i = some none → (expandRow f dr vals).get? i = some none := by
  intro dr
  induction dr with
  | nil =>
      intro vals i h
      simp at h
  | cons o rest ih =>
      intro vals i h
      cases o with
      | none =>
          cases i with
          | zero => rfl
          | succ j =>
              simp only [List.get?] at h ⊢
              exact ih vals j h
      | some v =>
          cases i with
          | zero =>
              simp at h
          | succ j =>
              simp only [List.get?] at h ⊢
              exact ih vals.tail j h

theorem allGeo_error {geoE : String → GeoRes} :
    ∀ {l : List String}, (∃ p ∈ l, geocodeCA geoE p = .error ()) →
      allGeo geoE l = .error () := by
  intro l
  induction l with
  | nil =>
      rintro ⟨p, hp, -⟩
      exact absurd hp (List.not_mem_nil p)
  | cons q qs ih =>
      rintro ⟨p, hp, he⟩
      rcases List.mem_cons.1 hp with rfl | hp2
      · rw [allGeo_cons, he]
        rfl
      · rcases hg : geocodeCA geoE q with e | x
        · rw [allGeo_cons, hg]
          rfl
        · rw [allGeo_cons, hg]
          simp only [Except.bind]
          rw [ih ⟨p, hp2, he⟩]

/-- C3 amended: when the origin geocodes, no destination geocode throws,
at least one destination geocodes, and the matrix call succeeds, the
handler returns distance and duration arrays aligned index-for-index
with the normalized destination list (the input postals normalized,
the unnormalizable ones dropped, and the rest truncated to 40), a
destination whose geocode returns no result yielding null at its
position in that list; a destination whose geocode throws (a
non-success geocoder response) instead aborts the whole batch with a
structured failure. -/
theorem claim_C3_amended (ticket_postal : String) (tech_postals : List String)
    (geo : String → GeoRes) (mat : (ℝ × ℝ) → List (ℝ × ℝ) → MatRes)
    (src : ℝ × ℝ) (destsRaw : List (Option (ℝ × ℝ)))
    (dists durs : List (Option ℝ)) (tech : List String)
    (htech : tech = ((tech_postals.map normPostalGw).filter
      (fun p => p ≠ "")).take 40)
    (hticket : normPostalGw ticket_postal ≠ "")
    (htne : tech ≠ [])
    (hsrc : geocodeCA geo (normPostalGw ticket_postal) = .ok (some src))
    (hdests : allGeo geo tech = .ok destsRaw)
    (hvalid : destsRaw.filterMap id ≠ [])
    (hmat : mat src (destsRaw.filterMap id) = .okRows dists durs) :
    handlerGw ticket_postal tech_postals geo mat =
      .okResp (expandRow (fun d => d) destsRaw dists)
        (expandRow (fun t => t / 60) destsRaw durs) ∧
    destsRaw.length = tech.length ∧
    (expandRow (fun d => d) destsRaw dists).length = tech.length ∧
    (expandRow (fun t => t / 60) destsRaw durs).length = tech.length ∧
    (∀ i p, tech.get? i = some p → geocodeCA geo p = .ok none →
      (expandRow (fun d => d) destsRaw dists).get? i = some none ∧
      (expandRow (fun t => t / 60) destsRaw durs).get? i = some none) ∧
    (∀ geoE : String → GeoRes, (∃ p ∈ tech, geocodeCA geoE p = .error ()) →
      allGeo geoE tech = .error ()) ∧
    (∀ (geoE : String → GeoRes) (srcE : Option (ℝ × ℝ)),
      geocodeCA geoE (normPostalGw ticket_postal) = .ok srcE →
      allGeo geoE tech = .error () →
      handlerGw ticket_postal tech_postals geoE mat = .failResp 200) := by
  have hlen := allGeo_length hdests
  refine ⟨?_, hlen, by rw [expandRow_length]; exact hlen,
    by rw [expandRow_length]; exact hlen, ?_, fun geoE h => allGeo_error h, ?_⟩
  · unfold handlerGw
    dsimp only
    rw [← htech]
    rw [if_neg (fun h => h.elim (fun h1 => hticket h1)
      (fun h2 => htne (List.length_eq_zero.1 h2)))]
    simp only [hsrc]
    simp only [hdests]
    rw [if_neg (fun h2 => hvalid (List.length_eq_zero.1 h2))]
    simp only [hmat]
  · intro i p hip hnone
    have hdr : destsRaw.get? i = some none := allGeo_get hdests i p hip hnone
    exact ⟨expandRow_get_none _ destsRaw dists i hdr,
      expandRow_get_none _ destsRaw durs i hdr⟩
  · intro geoE srcE hsE haE
    unfold handlerGw
    dsimp only
    rw [← htech]
    rw [if_neg (fun h => h.elim (fun h1 => hticket h1)
      (fun h2 => htne (List.length_eq_zero.1 h2)))]
    simp only [hsE]
    cases srcE with
    | none => rfl
    | some s => simp only [haE]

/-- Counterexample to C3 as stated: with the raw destination list
containing an unnormalizable postal, the handler returns arrays of
length one while the input destination list has length two, so the
returned arrays are not aligned index-for-index with the input list. -/
theorem claim_C3_cx :
    handlerGw "K1A0B1" ["@@@", "A1A1A1"]
      (fun k => if k = "A1A1A1" then .found 1 2
        else if k = "K1A0B1" then .found 3 4 else .notFound)
      (fun _ _ => .okRows [some 10] [some 600]) =
      .okResp [some 10] [some (600 / 60)] ∧
    ([some (10:ℝ)] : List (Option ℝ)).length ≠
      (["@@@", "A1A1A1"] : List String).length :=
  ⟨rfl, by decide⟩

/-- Witness for the amended C3 at a concrete two-service setup. -/
theorem claim_C3_witness :
    handlerGw "K1A0B1" ["A1A1A1"]
      (fun k => if k = "A1A1A1" then .found 1 2
        else if k = "K1A0B1" then .found 3 4 else .notFound)
      (fun _ _ => .okRows [some 9] [some 120]) =
      .okResp (expandRow (fun d => d) [some (1, 2)] [some 9])
        (expandRow (fun t => t / 60) [some (1, 2)] [some 120]) ∧
    ([some ((1:ℝ), (2:ℝ))] : List (Option (ℝ × ℝ))).length =
      (["A1A1A1"] : List String).length :=
  ⟨(claim_C3_amended "K1A0B1" ["A1A1A1"]
      (fun k => if k = "A1A1A1" then .found 1 2
        else if k = "K1A0B1" then .found 3 4 else .notFound)
      (fun _ _ => .okRows [some 9] [some 120])
      (3, 4) [some (1, 2)] [some 9] [some 120] ["A1A1A1"]
      rfl (by decide) (by decide) rfl rfl (List.cons_ne_nil _ _) rfl).1,
    (claim_C3_amended "K1A0B1" ["A1A1A1"]
      (fun k => if k = "A1A1A1" then .found 1 2
        else if k = "K1A0B1" then .found 3 4 else .notFound)
      (fun _ _ => .okRows [some 9] [some 120])
      (3, 4) [some (1, 2)] [some 9] [some 120] ["A1A1A1"]
      rfl (by decide) (by decide) rfl rfl (List.cons_ne_nil _ _) rfl).2.1⟩
